import Mathlib

/-!
Verification development for the FBI-fugitives record-normalization pipeline
(`src/main.py`, part 2: data cleaning).  The Python source is shallowly
embedded: Python strings become `List Char`, `None`/NaN cells become
`Option`, pandas data frames become a `DF` structure whose rows are keyed by
column name, and the floating-point values produced by the height/weight
parsers are modelled as exact decimal numbers (`Dec`).  Every definition
follows the corresponding Python function; the theorems at the end settle
the frozen claims about the pipeline.
-/

/-! ### Character and string utilities (Python `str` helpers) -/

/-- Apostrophe character, written by code point. -/
def apos : Char := Char.ofNat 39

/-- Double-quote character, written by code point. -/
def dquote : Char := Char.ofNat 34

/-- Python whitespace for `str.strip` and the regex class `\s`
(space, tab, newline, carriage return, form feed, vertical tab). -/
def isPySpace (c : Char) : Bool :=
  c = ' ' || c = Char.ofNat 9 || c = Char.ofNat 10 || c = Char.ofNat 13 ||
  c = Char.ofNat 12 || c = Char.ofNat 11

/-- ASCII decimal digit, the regex class `\d` (inputs here are ASCII). -/
def isDigitC (c : Char) : Bool := '0' ≤ c ∧ c ≤ '9'

/-- Regex word character `\w` (ASCII letters, digits, underscore), used for
the word-boundary assertion `\b`. -/
def isWordC (c : Char) : Bool :=
  ('a' ≤ c ∧ c ≤ 'z') || ('A' ≤ c ∧ c ≤ 'Z') || isDigitC c || c = '_'

/-- Python `str.lower` on one character (ASCII case mapping). -/
def lowerC (c : Char) : Char := c.toLower

/-- Python `str.lower`. -/
def toLowerL (s : List Char) : List Char := s.map lowerC

/-- Python `str.strip()`: remove leading and trailing whitespace. -/
def pyStrip (s : List Char) : List Char :=
  ((s.dropWhile isPySpace).reverse.dropWhile isPySpace).reverse

/-- Test that a needle occurs as a contiguous substring of the haystack
(the Python operator `needle in haystack`). -/
def isSubstringOf (needle hay : List Char) : Bool :=
  match hay with
  | [] => needle.isEmpty
  | _ :: t => needle.isPrefixOf hay || isSubstringOf needle t

/-- Digits to a natural number, Python `int` on a digit string. -/
def digitsToNat (ds : List Char) : ℕ :=
  ds.foldl (fun acc c => 10 * acc + (c.toNat - '0'.toNat)) 0

/-! ### Exact decimal numbers

Python floats produced by this program all come from parsing unsigned
decimal digit strings and multiplying/averaging them with decimal
constants, so they are modelled as exact non-negative decimals
`mant / 10 ^ exp`.  `round x 1` is modelled as round-half-to-even on the
exact value (Python rounds the nearest double; no tie arises in any claim).
-/

/-- Exact non-negative decimal `mant / 10 ^ exp`. -/
structure Dec where
  mant : ℕ
  exp : ℕ
deriving DecidableEq

/-- Rational value of a decimal. -/
def Dec.val (d : Dec) : ℚ := (d.mant : ℚ) / 10 ^ d.exp

/-- Build a decimal from integer digits and (possibly empty) fraction digits,
Python `float("<int>.<frac>")`. -/
def mkDec (intDs fracDs : List Char) : Dec :=
  ⟨digitsToNat (intDs ++ fracDs), fracDs.length⟩

/-- Multiplication of exact decimals. -/
def Dec.mul (a b : Dec) : Dec := ⟨a.mant * b.mant, a.exp + b.exp⟩

/-- Comparison of exact decimals by cross multiplication. -/
def Dec.le (a b : Dec) : Bool := a.mant * 10 ^ b.exp ≤ b.mant * 10 ^ a.exp

/-- Round-half-to-even of the rational `n / d` (`d ≠ 0`), on naturals. -/
def roundHalfEvenN (n d : ℕ) : ℕ :=
  let q := n / d
  let r := n % d
  if 2 * r < d then q
  else if d < 2 * r then q + 1
  else if q % 2 = 0 then q else q + 1

/-- Python `round(x, 1)` on an exact decimal; result has one fraction digit. -/
def pyRound1 (x : Dec) : Dec := ⟨roundHalfEvenN (x.mant * 10) (10 ^ x.exp), 1⟩

/-! ### Python dates

`datetime.date(y, m, d)` validates its arguments (`MINYEAR = 1`,
`MAXYEAR = 9999`, day within the month); `mkValidDate` mirrors the
constructor, returning `none` where Python raises `ValueError`. -/

/-- A calendar date as stored by `datetime.date`. -/
structure PDate where
  year : ℕ
  month : ℕ
  day : ℕ
deriving DecidableEq

/-- Gregorian leap-year rule used by `datetime`. -/
def isLeapYear (y : ℕ) : Bool := y % 4 = 0 ∧ (y % 100 ≠ 0 ∨ y % 400 = 0)

/-- Days in a month, as `datetime` validates them. -/
def daysInMonth (y m : ℕ) : ℕ :=
  if m = 2 then (if isLeapYear y then 29 else 28)
  else if m = 4 ∨ m = 6 ∨ m = 9 ∨ m = 11 then 30
  else 31

/-- The `datetime.date` constructor: `some` on a valid date, `none` where
Python raises `ValueError`. -/
def mkValidDate (y m d : ℕ) : Option PDate :=
  if 1 ≤ y ∧ y ≤ 9999 ∧ 1 ≤ m ∧ m ≤ 12 ∧ 1 ≤ d ∧ d ≤ daysInMonth y m then
    some ⟨y, m, d⟩
  else none

/-- The fixed reference date `TODAY = date(2025, 10, 21)` from the source. -/
def TODAY : PDate := ⟨2025, 10, 21⟩

/-! ### Regex-style matching combinators

Python regex matching is depth-first with ordered alternation and greedy
(backtracking) quantifiers.  A pattern is embedded as a function from the
input to the ordered list of match candidates `(captured value, remainder)`;
the head of the list is the match Python commits to. -/

/-- A pattern matcher: ordered candidate list of (capture, rest). -/
def Pa (α : Type) : Type := List Char → List (α × List Char)

/-- Empty pattern, capturing a value. -/
def ppure {α : Type} (a : α) : Pa α := fun cs => [(a, cs)]

/-- Sequencing of patterns, preserving candidate order. -/
def pbind {α β : Type} (p : Pa α) (f : α → Pa β) : Pa β :=
  fun cs => (p cs).flatMap (fun x => f x.1 x.2)

/-- Mapping over the capture. -/
def pmap {α β : Type} (g : α → β) (p : Pa α) : Pa β :=
  fun cs => (p cs).map (fun x => (g x.1, x.2))

/-- Pattern with no match. -/
def pfail {α : Type} : Pa α := fun _ => []

/-- Ordered alternation `p|q`: candidates of `p` are preferred. -/
def palt {α : Type} (p q : Pa α) : Pa α := fun cs => p cs ++ q cs

/-- Single character satisfying a predicate (a regex character class). -/
def pch (pred : Char → Bool) : Pa Char := fun cs =>
  match cs with
  | [] => []
  | c :: t => if pred c then [(c, t)] else []

/-- Literal character. -/
def plit (c : Char) : Pa Unit := fun cs =>
  match cs with
  | [] => []
  | x :: t => if x = c then [((), t)] else []

/-- Literal character, case-insensitive (`re.IGNORECASE`). -/
def plitCI (c : Char) : Pa Unit := fun cs =>
  match cs with
  | [] => []
  | x :: t => if lowerC x = lowerC c then [((), t)] else []

/-- Literal string, case-insensitive. -/
def pstrCI : List Char → Pa Unit
  | [] => ppure ()
  | c :: rest => pbind (plitCI c) (fun _ => pstrCI rest)

/-- Greedy `\d{lo,hi}`: candidate digit strings from longest to shortest. -/
def pdigitsRange (lo hi : ℕ) : Pa (List Char) := fun cs =>
  let n := min (cs.takeWhile isDigitC).length hi
  (List.range (n + 1 - lo)).map (fun i => (cs.take (n - i), cs.drop (n - i)))

/-- Greedy `\d+`. -/
def pdigits1 : Pa (List Char) := fun cs =>
  let n := (cs.takeWhile isDigitC).length
  (List.range n).map (fun i => (cs.take (n - i), cs.drop (n - i)))

/-- Greedy `\s*`. -/
def pspaces0 : Pa Unit := fun cs =>
  let n := (cs.takeWhile isPySpace).length
  (List.range (n + 1)).map (fun i => ((), cs.drop (n - i)))

/-- Greedy `\s+`. -/
def pspaces1 : Pa Unit := fun cs =>
  let n := (cs.takeWhile isPySpace).length
  (List.range n).map (fun i => ((), cs.drop (n - i)))

/-- Greedy optional group `(...)?`: the candidate with the group is tried
before the candidate without it. -/
def popt {α : Type} (p : Pa α) : Pa (Option α) := palt (pmap some p) (ppure none)

/-- Word boundary `\b` right after a word character: succeeds when the next
character is absent or not a word character. -/
def pEndWordBoundary : Pa Unit := fun cs =>
  match cs with
  | [] => [((), [])]
  | c :: _ => if isWordC c then [] else [((), cs)]

/-- Word boundary `\b` right after a non-word character: succeeds when the
next character is a word character. -/
def pBoundaryBeforeWord : Pa Unit := fun cs =>
  match cs with
  | [] => []
  | c :: _ => if isWordC c then [((), cs)] else []

/-- Word boundary `\b` at the start of a match beginning with a word
character: the previous character must be absent or not a word character. -/
def prevNonWord (prev : Option Char) : Bool :=
  match prev with
  | none => true
  | some c => ¬ isWordC c

/-- Leftmost search (`re.search`): positions are scanned left to right and
the first position with a candidate wins, taking the pattern's preferred
candidate there.  The previous character is tracked for `\b` assertions. -/
def regSearchAux {α : Type} (pat : Option Char → Pa α) (prev : Option Char) (cs : List Char) :
    Option α :=
  match pat prev cs with
  | (a, _) :: _ => some a
  | [] =>
    match cs with
    | [] => none
    | c :: t => regSearchAux pat (some c) t

/-- Leftmost search from the start of the string. -/
def regSearch {α : Type} (pat : Option Char → Pa α) (s : List Char) : Option α :=
  regSearchAux pat none s

/-! ### The date parser (`parse_date` and its helpers)

CPython `strptime` compiles a format into a regex (IGNORECASE), matches it
at position 0, and raises unless the whole string was consumed; the match
object is converted with the POSIX two-digit-year pivot (`y <= 68` gives
the 2000s, otherwise the 1900s) and a validating `date(...)` call.  The
numeric directives expand to `%m = 1[0-2]|0[1-9]|[1-9]`,
`%d = 3[01]|[12]\d|0[1-9]|[1-9]`, `%Y = \d\d\d\d`, `%y = \d\d`; whitespace
in a format matches `\s+`; month-name alternations are sorted longest
first. -/

/-- Directive `%m`. -/
def pMonthNum : Pa ℕ :=
  palt
    (pbind (plit '1') fun _ => pbind (pch (fun c => '0' ≤ c ∧ c ≤ '2')) fun c =>
      ppure (10 + (c.toNat - '0'.toNat)))
    (palt
      (pbind (plit '0') fun _ => pbind (pch (fun c => '1' ≤ c ∧ c ≤ '9')) fun c =>
        ppure (c.toNat - '0'.toNat))
      (pbind (pch (fun c => '1' ≤ c ∧ c ≤ '9')) fun c => ppure (c.toNat - '0'.toNat)))

/-- Directive `%d`. -/
def pDayNum : Pa ℕ :=
  palt
    (pbind (plit '3') fun _ => pbind (pch (fun c => c = '0' ∨ c = '1')) fun c =>
      ppure (30 + (c.toNat - '0'.toNat)))
    (palt
      (pbind (pch (fun c => c = '1' ∨ c = '2')) fun c => pbind (pch isDigitC) fun c2 =>
        ppure (10 * (c.toNat - '0'.toNat) + (c2.toNat - '0'.toNat)))
      (palt
        (pbind (plit '0') fun _ => pbind (pch (fun c => '1' ≤ c ∧ c ≤ '9')) fun c =>
          ppure (c.toNat - '0'.toNat))
        (pbind (pch (fun c => '1' ≤ c ∧ c ≤ '9')) fun c => ppure (c.toNat - '0'.toNat))))

/-- Directive `%Y`: exactly four digits. -/
def pYear4 : Pa ℕ :=
  pbind (pch isDigitC) fun a => pbind (pch isDigitC) fun b =>
  pbind (pch isDigitC) fun c => pbind (pch isDigitC) fun d =>
  ppure (digitsToNat [a, b, c, d])

/-- Directive `%y`: two digits, then the POSIX century pivot
(`0..68` to the 2000s, `69..99` to the 1900s). -/
def pYear2Pivot : Pa ℕ :=
  pbind (pch isDigitC) fun a => pbind (pch isDigitC) fun b =>
  ppure (if digitsToNat [a, b] ≤ 68 then digitsToNat [a, b] + 2000
         else digitsToNat [a, b] + 1900)

/-- Full month names paired with their numbers, in CPython alternation
order: sorted by length, longest first, ties keeping calendar order. -/
def monthFullNames : List (List Char × ℕ) :=
  [("september".data, 9), ("february".data, 2), ("november".data, 11),
   ("december".data, 12), ("january".data, 1), ("october".data, 10),
   ("august".data, 8), ("march".data, 3), ("april".data, 4),
   ("june".data, 6), ("july".data, 7), ("may".data, 5)]

/-- Abbreviated month names (`%b`), all of length three. -/
def monthAbbrNames : List (List Char × ℕ) :=
  [("jan".data, 1), ("feb".data, 2), ("mar".data, 3), ("apr".data, 4),
   ("may".data, 5), ("jun".data, 6), ("jul".data, 7), ("aug".data, 8),
   ("sep".data, 9), ("oct".data, 10), ("nov".data, 11), ("dec".data, 12)]

/-- Ordered alternation over a name table (case-insensitive). -/
def pNameOf (tbl : List (List Char × ℕ)) : Pa ℕ :=
  tbl.foldr (fun nv acc => palt (pbind (pstrCI nv.1) fun _ => ppure nv.2) acc) pfail

/-- Format `%B %d, %Y` (for example `April 13, 1961`). -/
def fmtBdY : Pa (ℕ × ℕ × ℕ) :=
  pbind (pNameOf monthFullNames) fun m => pbind pspaces1 fun _ =>
  pbind pDayNum fun d => pbind (plit ',') fun _ => pbind pspaces1 fun _ =>
  pbind pYear4 fun y => ppure (y, m, d)

/-- Format `%b %d, %Y` (for example `Apr 13, 1961`). -/
def fmtbdY : Pa (ℕ × ℕ × ℕ) :=
  pbind (pNameOf monthAbbrNames) fun m => pbind pspaces1 fun _ =>
  pbind pDayNum fun d => pbind (plit ',') fun _ => pbind pspaces1 fun _ =>
  pbind pYear4 fun y => ppure (y, m, d)

/-- Format `%m/%d/%Y` (for example `04/13/1961`). -/
def fmtMDY : Pa (ℕ × ℕ × ℕ) :=
  pbind pMonthNum fun m => pbind (plit '/') fun _ =>
  pbind pDayNum fun d => pbind (plit '/') fun _ =>
  pbind pYear4 fun y => ppure (y, m, d)

/-- Format `%m/%d/%y` (for example `04/13/61`). -/
def fmtMDy : Pa (ℕ × ℕ × ℕ) :=
  pbind pMonthNum fun m => pbind (plit '/') fun _ =>
  pbind pDayNum fun d => pbind (plit '/') fun _ =>
  pbind pYear2Pivot fun y => ppure (y, m, d)

/-- Format `%Y-%m-%d` (for example `1961-04-13`). -/
def fmtYMD : Pa (ℕ × ℕ × ℕ) :=
  pbind pYear4 fun y => pbind (plit '-') fun _ =>
  pbind pMonthNum fun m => pbind (plit '-') fun _ =>
  pbind pDayNum fun d => ppure (y, m, d)

/-- Format `%d %B %Y` (for example `13 April 1961`). -/
def fmtdBY : Pa (ℕ × ℕ × ℕ) :=
  pbind pDayNum fun d => pbind pspaces1 fun _ =>
  pbind (pNameOf monthFullNames) fun m => pbind pspaces1 fun _ =>
  pbind pYear4 fun y => ppure (y, m, d)

/-- Format `%d %b %Y` (for example `13 Apr 1961`). -/
def fmtdbY : Pa (ℕ × ℕ × ℕ) :=
  pbind pDayNum fun d => pbind pspaces1 fun _ =>
  pbind (pNameOf monthAbbrNames) fun m => pbind pspaces1 fun _ =>
  pbind pYear4 fun y => ppure (y, m, d)

/-- Run one `strptime` format: take the committed match, require the whole
string consumed, then validate with the `date` constructor
(`_parse_date_with_format` returns `None` where Python raises). -/
def runFormat (p : Pa (ℕ × ℕ × ℕ)) (cs : List Char) : Option PDate :=
  match p cs with
  | [] => none
  | (ymd, rest) :: _ =>
    if rest.isEmpty then mkValidDate ymd.1 ymd.2.1 ymd.2.2 else none

/-- The ordered `date_formats` list of `parse_date`. -/
def dateFormats : List (Pa (ℕ × ℕ × ℕ)) :=
  [fmtBdY, fmtbdY, fmtMDY, fmtMDy, fmtYMD, fmtdBY, fmtdbY]

/-- Try the formats in order, first success wins. -/
def tryFormats : List (Pa (ℕ × ℕ × ℕ)) → List Char → Option PDate
  | [], _ => none
  | f :: rest, s =>
    match runFormat f s with
    | some d => some d
    | none => tryFormats rest s

/-- Conversion step of `_parse_date_with_regex`: the captured year digits go
through `int`, and only when the resulting integer prints with two digits
(10..99) is the two-digit-century rule applied (`> 25` gives the 1900s,
otherwise the 2000s); then the validating `date(...)` call. -/
def convertRegexDate (yDs mDs dDs : List Char) : Option PDate :=
  let yn := digitsToNat yDs
  let y := if 10 ≤ yn ∧ yn ≤ 99 then (if 25 < yn then yn + 1900 else yn + 2000) else yn
  mkValidDate y (digitsToNat mDs) (digitsToNat dDs)

/-- Fallback pattern `\b(\d{4})-(\d{1,2})-(\d{1,2})\b` capturing
(year, month, day) digit groups. -/
def isoDatePat (prev : Option Char) : Pa (List Char × List Char × List Char) :=
  fun cs =>
    if prevNonWord prev then
      (pbind (pdigitsRange 4 4) fun y => pbind (plit '-') fun _ =>
       pbind (pdigitsRange 1 2) fun mo => pbind (plit '-') fun _ =>
       pbind (pdigitsRange 1 2) fun d => pbind pEndWordBoundary fun _ =>
       ppure (y, mo, d)) cs
    else []

/-- Fallback pattern `\b(\d{1,2})/(\d{1,2})/(\d{2,4})\b` capturing
(month, day, year) digit groups in source group order. -/
def slashedDatePat (prev : Option Char) : Pa (List Char × List Char × List Char) :=
  fun cs =>
    if prevNonWord prev then
      (pbind (pdigitsRange 1 2) fun mo => pbind (plit '/') fun _ =>
       pbind (pdigitsRange 1 2) fun d => pbind (plit '/') fun _ =>
       pbind (pdigitsRange 2 4) fun y => pbind pEndWordBoundary fun _ =>
       ppure (mo, d, y)) cs
    else []

/-- Second regex fallback of `parse_date` (slashed numeric date, with
`year_group = 2`, `month_group = 0`, `day_group = 1`). -/
def trySlashed (s : List Char) : Option PDate :=
  match regSearch slashedDatePat s with
  | some (mo, d, y) => convertRegexDate y mo d
  | none => none

/-- The full `parse_date`: `None`/blank handling, then the ordered format
list, then the ISO-shaped regex fallback, then the slashed regex fallback. -/
def parse_date (text : Option (List Char)) : Option PDate :=
  match text with
  | none => none
  | some raw =>
    let s := pyStrip raw
    if s.isEmpty then none
    else
      match tryFormats dateFormats s with
      | some d => some d
      | none =>
        match regSearch isoDatePat s with
        | some ymd =>
          match convertRegexDate ymd.1 ymd.2.1 ymd.2.2 with
          | some dt => some dt
          | none => trySlashed s
        | none => trySlashed s

/-! ### Age and zodiac (`compute_age`, `zodiac_sign`) -/

/-- Age as an integer year difference against a reference date, decremented
when the reference (month, day) precedes the birth (month, day); negative
results are reported as absence. -/
def compute_age (birth : Option PDate) (ref : PDate) : Option ℤ :=
  match birth with
  | none => none
  | some bd =>
    let years : ℤ := (ref.year : ℤ) - (bd.year : ℤ)
    let yrs := if ref.month < bd.month ∨ (ref.month = bd.month ∧ ref.day < bd.day) then
                 years - 1 else years
    if 0 ≤ yrs then some yrs else none

/-- One row of the `zodiac_ranges` table: optional start and end
(month, day) pairs and the sign name; the final row has no bounds. -/
structure ZEntry where
  zstart : Option (ℕ × ℕ)
  zend : Option (ℕ × ℕ)
  sign : List Char
deriving DecidableEq

/-- The fixed `zodiac_ranges` table, ending with the Capricorn default. -/
def zodiacRanges : List ZEntry :=
  [⟨some (1, 20), some (2, 18), "Aquarius".data⟩,
   ⟨some (2, 19), some (3, 20), "Pisces".data⟩,
   ⟨some (3, 21), some (4, 19), "Aries".data⟩,
   ⟨some (4, 20), some (5, 20), "Taurus".data⟩,
   ⟨some (5, 21), some (6, 20), "Gemini".data⟩,
   ⟨some (6, 21), some (7, 22), "Cancer".data⟩,
   ⟨some (7, 23), some (8, 22), "Leo".data⟩,
   ⟨some (8, 23), some (9, 22), "Virgo".data⟩,
   ⟨some (9, 23), some (10, 22), "Libra".data⟩,
   ⟨some (10, 23), some (11, 21), "Scorpio".data⟩,
   ⟨some (11, 22), some (12, 21), "Sagittarius".data⟩,
   ⟨none, none, "Capricorn".data⟩]

/-- The loop condition of `zodiac_sign`: a missing start matches anything,
otherwise match at the start month from the start day on, or at the end
month up to the end day. -/
def zodiacMatches (e : ZEntry) (m d : ℕ) : Bool :=
  match e.zstart with
  | none => true
  | some st =>
    decide (m = st.1 ∧ st.2 ≤ d) ||
      (match e.zend with
       | none => false
       | some en => decide (m = en.1 ∧ d ≤ en.2))

/-- The range scan of `zodiac_sign`. -/
def zodiacLoop : List ZEntry → ℕ → ℕ → Option (List Char)
  | [], _, _ => none
  | e :: rest, m, d =>
    if zodiacMatches e m d then some e.sign else zodiacLoop rest m d

/-- The full `zodiac_sign`: absence in, absence out; otherwise scan the
fixed table. -/
def zodiac_sign (b : Option PDate) : Option (List Char) :=
  match b with
  | none => none
  | some bd => zodiacLoop zodiacRanges bd.month bd.day

/-! ### The height parser (`parse_height_to_cm`)

Each regex of the source is transcribed as an ordered-candidate pattern.
The height text has already been lowercased, so the literals are matched
exactly as written in the source patterns. -/

/-- Exact literal string. -/
def pstrE : List Char → Pa Unit
  | [] => ppure ()
  | c :: rest => pbind (plit c) (fun _ => pstrE rest)

/-- Captured number `(\d{lo,hi}(?:\.\d+)?)` as an exact decimal. -/
def pDecCap (lo hi : ℕ) : Pa Dec :=
  pbind (pdigitsRange lo hi) fun ds =>
    palt (pbind (plit '.') fun _ => pbind pdigits1 fun fs => ppure (mkDec ds fs))
         (ppure (mkDec ds []))

/-- Captured number `(\d+(?:\.\d+)?)` as an exact decimal. -/
def pDecPlus : Pa Dec :=
  pbind pdigits1 fun ds =>
    palt (pbind (plit '.') fun _ => pbind pdigits1 fun fs => ppure (mkDec ds fs))
         (ppure (mkDec ds []))

/-- Pattern `(\d{2,3}(?:\.\d+)?)\s*cm\b`. -/
def cmPat (_ : Option Char) : Pa Dec :=
  pbind (pDecCap 2 3) fun v => pbind pspaces0 fun _ =>
  pbind (pstrE "cm".data) fun _ => pbind pEndWordBoundary fun _ => ppure v

/-- Pattern `(\d(?:\.\d{1,2})?)\s*m\b`. -/
def mPat (_ : Option Char) : Pa Dec :=
  pbind (pbind (pdigitsRange 1 1) fun ds =>
          palt (pbind (plit '.') fun _ => pbind (pdigitsRange 1 2) fun fs =>
                 ppure (mkDec ds fs))
               (ppure (mkDec ds []))) fun v =>
  pbind pspaces0 fun _ => pbind (plit 'm') fun _ =>
  pbind pEndWordBoundary fun _ => ppure v

/-- Pattern `(\d{2,3}(?:\.\d+)?)\s*(?:in|inch|inches|")\b`; the trailing
word boundary depends on which alternative matched last. -/
def inchPat (_ : Option Char) : Pa Dec :=
  pbind (pDecCap 2 3) fun v => pbind pspaces0 fun _ =>
  pbind
    (palt (pbind (pstrE "in".data) fun _ => pEndWordBoundary)
      (palt (pbind (pstrE "inch".data) fun _ => pEndWordBoundary)
        (palt (pbind (pstrE "inches".data) fun _ => pEndWordBoundary)
          (pbind (plit dquote) fun _ => pBoundaryBeforeWord)))) fun _ =>
  ppure v

/-- Guard pattern `\bft|foot|feet|\'\b` (presence of a feet marker). -/
def ftGuardPat (prev : Option Char) : Pa Unit :=
  palt (fun cs => if prevNonWord prev then (pstrE "ft".data) cs else [])
    (palt (pstrE "foot".data)
      (palt (pstrE "feet".data)
        (pbind (plit apos) fun _ => pBoundaryBeforeWord)))

/-- Feet-and-inches pattern `(?:(\d+)\s*(?:ft|foot|feet|\' ))\s*(\d{1,2})?`. -/
def ftInPat1 (_ : Option Char) : Pa (ℕ × Option ℕ) :=
  pbind pdigits1 fun ftDs => pbind pspaces0 fun _ =>
  pbind (palt (pstrE "ft".data)
          (palt (pstrE "foot".data)
            (palt (pstrE "feet".data)
              (pbind (plit apos) fun _ => plit ' ')))) fun _ =>
  pbind pspaces0 fun _ => pbind (popt (pdigitsRange 1 2)) fun inDs =>
  ppure (digitsToNat ftDs, inDs.map digitsToNat)

/-- Feet-and-inches fallback pattern `(\d+)\s*\'\s*(\d{1,2})?`. -/
def ftInPat2 (_ : Option Char) : Pa (ℕ × Option ℕ) :=
  pbind pdigits1 fun ftDs => pbind pspaces0 fun _ => pbind (plit apos) fun _ =>
  pbind pspaces0 fun _ => pbind (popt (pdigitsRange 1 2)) fun inDs =>
  ppure (digitsToNat ftDs, inDs.map digitsToNat)

/-- Bare numeric pattern `(\d{1,3}(?:\.\d+)?)`. -/
def numPat (_ : Option Char) : Pa Dec := pDecCap 1 3

/-- An inch in centimeters, the constant `2.54`. -/
def inch2cm : Dec := ⟨254, 2⟩

/-- The full `parse_height_to_cm` rule chain: centimeter suffix; meter
suffix guarded by the plausible 1.3..2.5 range; inch suffix unless a feet
marker occurs anywhere; feet-and-inches; bare number disambiguated by
magnitude.  The first successful rule returns. -/
def parse_height_to_cm (height : Option (List Char)) : Option Dec :=
  match height with
  | none => none
  | some raw =>
    if (pyStrip raw).isEmpty then none
    else
      let s := pyStrip (toLowerL raw)
      match regSearch cmPat s with
      | some v => some v
      | none =>
        let mStep : Option Dec :=
          match regSearch mPat s with
          | some vm =>
            if Dec.le ⟨13, 1⟩ vm ∧ Dec.le vm ⟨25, 1⟩ then
              some (pyRound1 (Dec.mul vm ⟨100, 0⟩))
            else none
          | none => none
        match mStep with
        | some v => some v
        | none =>
          let inStep : Option Dec :=
            match regSearch inchPat s with
            | some vi =>
              if (regSearch ftGuardPat s).isSome then none
              else some (pyRound1 (Dec.mul vi inch2cm))
            | none => none
          match inStep with
          | some v => some v
          | none =>
            let ftRes :=
              match regSearch ftInPat1 s with
              | some r => some r
              | none => regSearch ftInPat2 s
            match ftRes with
            | some fi => some (pyRound1 (Dec.mul ⟨fi.1 * 12 + fi.2.getD 0, 0⟩ inch2cm))
            | none =>
              match regSearch numPat s with
              | some v =>
                if Dec.le ⟨50, 0⟩ v ∧ Dec.le v ⟨90, 0⟩ then
                  some (pyRound1 (Dec.mul v inch2cm))
                else if Dec.le ⟨14, 1⟩ v ∧ Dec.le v ⟨25, 1⟩ then
                  some (pyRound1 (Dec.mul v ⟨100, 0⟩))
                else if Dec.le ⟨140, 0⟩ v ∧ Dec.le v ⟨230, 0⟩ then
                  some (pyRound1 v)
                else none
              | none => none

/-! ### The weight parser (`parse_weight_to_kg`) -/

/-- Scan for all non-overlapping matches left to right (`re.findall`),
with fuel bounded by the string length. -/
def regFindAllAux {α : Type} (pat : Option Char → Pa α) :
    ℕ → Option Char → List Char → List α
  | 0, _, _ => []
  | fuel + 1, prev, cs =>
    match pat prev cs with
    | (a, rest) :: _ => a :: regFindAllAux pat fuel none rest
    | [] =>
      match cs with
      | [] => []
      | c :: t => regFindAllAux pat fuel (some c) t

/-- All matches of a pattern in a string. -/
def regFindAll {α : Type} (pat : Option Char → Pa α) (s : List Char) : List α :=
  regFindAllAux pat (s.length + 1) none s

/-- Pattern `(\d+(?:\.\d+)?)\s*kg\b`. -/
def kgPat (_ : Option Char) : Pa Dec :=
  pbind pDecPlus fun v => pbind pspaces0 fun _ =>
  pbind (pstrE "kg".data) fun _ => pbind pEndWordBoundary fun _ => ppure v

/-- Bare numeric pattern `(\d+(?:\.\d+)?)` used for pound values. -/
def lbNumPat (_ : Option Char) : Pa Dec := pDecPlus

/-- A non-negative rational as numerator and (positive) denominator. -/
def qOfDec (x : Dec) : ℕ × ℕ := (x.mant, 10 ^ x.exp)

/-- Rational addition on such pairs. -/
def qAdd (a b : ℕ × ℕ) : ℕ × ℕ := (a.1 * b.2 + b.1 * a.2, a.2 * b.2)

/-- Python `round(n / d, 1)` as an exact decimal with one fraction digit. -/
def qRound1 (a : ℕ × ℕ) : Dec := ⟨roundHalfEvenN (a.1 * 10) a.2, 1⟩

/-- Minimum of a nonempty decimal list by value (`min(vals)`). -/
def decListMin (v : Dec) (vs : List Dec) : Dec :=
  vs.foldl (fun acc x => if Dec.le x acc then x else acc) v

/-- Maximum of a nonempty decimal list by value (`max(vals)`). -/
def decListMax (v : Dec) (vs : List Dec) : Dec :=
  vs.foldl (fun acc x => if Dec.le acc x then x else acc) v

/-- A pound in kilograms, the constant `0.45359237`. -/
def lb2kg : Dec := ⟨45359237, 8⟩

/-- The full `parse_weight_to_kg`: explicit kilogram values are averaged;
otherwise all numbers are read as pounds, a range contributing the midpoint
of its minimum and maximum; the result is rounded to one decimal. -/
def parse_weight_to_kg (weight : Option (List Char)) : Option Dec :=
  match weight with
  | none => none
  | some raw =>
    if (pyStrip raw).isEmpty then none
    else
      let s := toLowerL raw
      match regFindAll kgPat s with
      | k :: ks =>
        some (qRound1 ((ks.map qOfDec).foldl qAdd (qOfDec k) |>
          (fun t => (t.1, t.2 * (k :: ks).length))))
      | [] =>
        match regFindAll lbNumPat s with
        | [] => none
        | [v] => some (pyRound1 (Dec.mul v lb2kg))
        | v :: vs =>
          let lo := decListMin v vs
          let hi := decListMax v vs
          let mid := qAdd (qOfDec lo) (qOfDec hi)
          some (qRound1 (qOfDec (Dec.mul ⟨mid.1, 0⟩ lb2kg) |>
            (fun t => (t.1, t.2 * (2 * mid.2)))))

/-! ### Splitting helpers (`re.split`) and the alias counter -/

/-- Greedy one-or-more run of a character class. -/
def prunPlus (pred : Char → Bool) : Pa Unit := fun cs =>
  let n := (cs.takeWhile pred).length
  (List.range n).map (fun i => ((), cs.drop (n - i)))

/-- Python `re.split`: scan left to right, cutting at each leftmost
non-overlapping delimiter match (every delimiter here consumes at least one
character; fuel is bounded by the string length). -/
def reSplitAux {α : Type} (pat : Option Char → Pa α) :
    ℕ → Option Char → List Char → List Char → List (List Char)
  | 0, _, acc, cs => [acc.reverse ++ cs]
  | fuel + 1, prev, acc, cs =>
    match pat prev cs with
    | (_, rest) :: _ => acc.reverse :: reSplitAux pat fuel none [] rest
    | [] =>
      match cs with
      | [] => [acc.reverse]
      | c :: t => reSplitAux pat fuel (some c) (c :: acc) t

/-- Split a string on a delimiter pattern. -/
def reSplit {α : Type} (pat : Option Char → Pa α) (s : List Char) :
    List (List Char) :=
  reSplitAux pat (s.length + 1) none [] s

/-- Python `str.replace("a/k/a", "aka")`, left to right, non-overlapping. -/
def replaceAka : ℕ → List Char → List Char
  | 0, cs => cs
  | fuel + 1, cs =>
    if ("a/k/a".data).isPrefixOf cs then "aka".data ++ replaceAka fuel (cs.drop 5)
    else
      match cs with
      | [] => []
      | c :: t => c :: replaceAka fuel t

/-- Alias delimiter `(?:\saka\s|\s*\|\s*|,\s*|;\s*|\n+)` with IGNORECASE. -/
def pAliasDelim (_ : Option Char) : Pa Unit :=
  palt (pbind (pch isPySpace) fun _ => pbind (pstrCI "aka".data) fun _ =>
         pbind (pch isPySpace) fun _ => ppure ())
    (palt (pbind pspaces0 fun _ => pbind (plit '|') fun _ =>
            pbind pspaces0 fun _ => ppure ())
      (palt (pbind (plit ',') fun _ => pbind pspaces0 fun _ => ppure ())
        (palt (pbind (plit ';') fun _ => pbind pspaces0 fun _ => ppure ())
          (prunPlus (fun c => c = Char.ofNat 10)))))

/-- The stoplist of non-answers discarded by the alias counter. -/
def aliasStopSet : List (List Char) :=
  ["-".data, "None".data, "N/A".data, "n/a".data]

/-- The full `count_aliases`: 0 for absent or blank text, otherwise
normalize `a/k/a` to `aka`, split on the delimiters, and count the parts
that are non-empty and not in the stoplist after stripping. -/
def count_aliases (text : Option (List Char)) : ℕ :=
  match text with
  | none => 0
  | some raw =>
    if (pyStrip raw).isEmpty then 0
    else
      let s0 := pyStrip raw
      let s := replaceAka (s0.length + 1) s0
      let parts := reSplit pAliasDelim s
      (parts.filter (fun p => !p.isEmpty && !(aliasStopSet.contains (pyStrip p)))).length

/-! ### The occupation classifier (`categorize_occupation`) -/

/-- Shorthand for one row of the keyword table. -/
def oc (c : String) (ks : List String) : List Char × List (List Char) :=
  (c.data, ks.map String.data)

/-- The ordered `OCCUPATION_KEYWORDS` table (Python dicts preserve
insertion order, so `.items()` iterates in exactly this order). -/
def OCCUPATION_KEYWORDS : List (List Char × List (List Char)) :=
  [oc "Military/Intelligence"
      ["officer", "gru", "intelligence", "military", "fsb", "security service",
       "syrian air force", "army", "navy", "marine", "directorate", "general staff"],
   oc "Medical"
      ["doctor", "surgeon", "physician", "nurse", "nursing", "therapist",
       "cardiologist", "medical", "catheter", "respiratory", "chiropractor",
       "acupuncturist", "chemist", "pharmaceutical"],
   oc "IT/Technology"
      ["it worker", "software", "programmer", "developer", "engineer", "computer",
       "network", "blockchain", "backend", "zksnark", "technology", "web"],
   oc "Construction"
      ["construction", "carpenter", "welder", "electrician", "plumber",
       "mason", "painter", "handyman", "builder", "contractor", "tractor driver",
       "floor sander"],
   oc "Transportation"
      ["driver", "truck", "taxi", "cab", "mechanic", "aviation", "pilot",
       "shipping", "boat", "ship"],
   oc "Food Service"
      ["cook", "chef", "waiter", "restaurant", "food service", "kitchen"],
   oc "Business/Management"
      ["ceo", "president", "director", "manager", "executive", "businessman",
       "entrepreneur", "owner", "operator", "consultant"],
   oc "Finance/Trading"
      ["broker", "trader", "commodities", "investment", "banking", "finance",
       "advisor", "asset manager"],
   oc "Government"
      ["government", "official", "diplomat", "service officer", "taxation",
       "commission", "delegation"],
   oc "Law Enforcement"
      ["police", "constable", "dispatcher", "security", "law enforcement"],
   oc "Agriculture"
      ["farm", "agriculture", "laborer", "migrant", "seed", "rice", "landscaping"],
   oc "Sales/Retail"
      ["sales", "salesman", "retail", "store", "clerk", "dealer"],
   oc "Trade/Manufacturing"
      ["warehouse", "factory", "manufacturing", "production", "textile",
       "procurement", "arms broker"],
   oc "Religious"
      ["priest", "pastor", "religious", "clergy", "minister"],
   oc "Services"
      ["massage", "nail technician", "barber", "salon", "spa"],
   oc "Education/Research"
      ["teacher", "professor", "researcher", "education", "academic"],
   oc "Emergency Services"
      ["fireman", "firefighter", "paramedic", "emt", "rescue"],
   oc "Entertainment"
      ["recording studio", "amusement", "arcade", "game"],
   oc "Unknown"
      ["unknown", "unemployed", "none", "n/a"]]

/-- The full `categorize_occupation`: `Unknown` for absent or blank text,
otherwise the first category whose any keyword is a case-insensitive
substring, else `Other`. -/
def categorize_occupation (text : Option (List Char)) : List Char :=
  match text with
  | none => "Unknown".data
  | some raw =>
    if (pyStrip raw).isEmpty then "Unknown".data
    else
      let tl := toLowerL raw
      match OCCUPATION_KEYWORDS.find?
          (fun p => p.2.any (fun k => isSubstringOf (toLowerL k) tl)) with
      | some p => p.1
      | none => "Other".data

/-! ### The birthplace classifier (`extract_country_from_birth_place`) -/

/-- Shorthand for one row of the birthplace table. -/
def bp (k c i : String) : List Char × (Option (List Char) × Option (List Char)) :=
  (k.data, (some c.data, some i.data))

/-- Shorthand for a key given as a raw character list (keys containing an
apostrophe). -/
def bpL (k : List Char) (c i : String) :
    List Char × (Option (List Char) × Option (List Char)) :=
  (k, (some c.data, some i.data))

/-- The `BIRTH_PLACE_MAPPING` table, in source order. -/
def BIRTH_PLACE_MAPPING :
    List (List Char × (Option (List Char) × Option (List Char))) :=
  [bp "Los Angeles, California" "United States" "USA",
   bp "Pasadena, California" "United States" "USA",
   bp "Arcadia, California" "United States" "USA",
   bp "Sacramento, California" "United States" "USA",
   bp "San Francisco, California" "United States" "USA",
   bp "Fresno, California" "United States" "USA",
   bp "California" "United States" "USA",
   bp "Brooklyn, New York" "United States" "USA",
   bp "New York City, New York" "United States" "USA",
   bp "New York" "United States" "USA",
   bp "El Paso, Texas" "United States" "USA",
   bp "Memphis, Tennessee" "United States" "USA",
   bp "Mobile, Alabama" "United States" "USA",
   bp "Selma, Alabama" "United States" "USA",
   bp "Alabama" "United States" "USA",
   bp "Springfield, Illinois" "United States" "USA",
   bp "Olney, Illinois" "United States" "USA",
   bp "Illinois" "United States" "USA",
   bp "Detroit, Michigan" "United States" "USA",
   bp "Michigan, USA" "United States" "USA",
   bp "Miami, Florida" "United States" "USA",
   bp "Florida" "United States" "USA",
   bp "New Jersey" "United States" "USA",
   bp "Virginia" "United States" "USA",
   bp "Oregon" "United States" "USA",
   bp "Pennsylvania" "United States" "USA",
   bp "North Dakota" "United States" "USA",
   bp "Louisiana" "United States" "USA",
   bp "Massachusetts" "United States" "USA",
   bp "Hawaii" "United States" "USA",
   bp "Idaho" "United States" "USA",
   bp "Ohio" "United States" "USA",
   bp "Wadesboro, North Carolina" "United States" "USA",
   bp "Washington, DC" "United States" "USA",
   bp "Wayne, Pennsylvania" "United States" "USA",
   bp "Hunan Province, China" "China" "CHN",
   bp "Liaoning, China" "China" "CHN",
   bp "Hangzhou, Zhejiang Province, China" "China" "CHN",
   bp "Heilongjiang, China" "China" "CHN",
   bp "Wusu, Xinjiang, China" "China" "CHN",
   bp "Anhui, China" "China" "CHN",
   bp "Tacheng, Xinjiang, China or Urumqi, Xinjiang, China" "China" "CHN",
   bp "Shaanxi, China" "China" "CHN",
   bp "Shandong, China" "China" "CHN",
   bp "Shanghai, China" "China" "CHN",
   bp "Weifang, Shandong, China" "China" "CHN",
   bp "Zhejiang, China" "China" "CHN",
   bp "China" "China" "CHN",
   bpL ("People".data ++ [apos] ++ "s Republic of China".data) "China" "CHN",
   bp "Chelyabinskaya Oblast, Russia" "Russia" "RUS",
   bp "Tver, Russia" "Russia" "RUS",
   bp "Stavropol, Russia" "Russia" "RUS",
   bp "Novocherkask, Russia" "Russia" "RUS",
   bp "Volzhskiy, Volgogradskaya Oblast, Russia" "Russia" "RUS",
   bp "Saint Petersburg, Russia" "Russia" "RUS",
   bp "Murmanskaya Oblast, Russia" "Russia" "RUS",
   bp "Sosnovka, Russia" "Russia" "RUS",
   bp "Moscow, Russia" "Russia" "RUS",
   bp "Village of Fenino, Serpukhovskoy District, Moscow Oblast, Russia" "Russia" "RUS",
   bp "Totma, Vologda Oblast, Russia" "Russia" "RUS",
   bp "Tymovskoye, Russia" "Russia" "RUS",
   bp "Leningrad, Russia" "Russia" "RUS",
   bp "Kaluga, Russia" "Russia" "RUS",
   bp "City of Syktyvkar, Russia" "Russia" "RUS",
   bp "Ramenskoye, Russia" "Russia" "RUS",
   bp "Grozny, Chechnya, Russia" "Russia" "RUS",
   bp "Rostov-On-Don, Russia" "Russia" "RUS",
   bp "Khaborovsk, Russia" "Russia" "RUS",
   bp "Obninsk, Kaluga Oblast, Russia" "Russia" "RUS",
   bp "Vologda, Russia" "Russia" "RUS",
   bp "Bratsk, Irkutsk Oblast, Russia" "Russia" "RUS",
   bp "Kursk, Russia" "Russia" "RUS",
   bp "Yoshkar-Ola, Russia" "Russia" "RUS",
   bp "Stavropolskiy Kraya, Russia" "Russia" "RUS",
   bp "Bologoe-4, Kalininskiy Oblast, Russia" "Russia" "RUS",
   bp "Russia" "Russia" "RUS",
   bp "Russian Federation" "Russia" "RUS",
   bp "Zabol, Iran" "Iran" "IRN",
   bp "Tehran, Iran" "Iran" "IRN",
   bp "Tabriz, Iran" "Iran" "IRN",
   bp "Zanjan, Iran" "Iran" "IRN",
   bp "Urmia, Iran" "Iran" "IRN",
   bp "Yazd Province, Iran" "Iran" "IRN",
   bp "Sabzevar, Iran" "Iran" "IRN",
   bp "Tehran Province, Iran" "Iran" "IRN",
   bp "Karaj, Iran" "Iran" "IRN",
   bp "Mianeh, Iran" "Iran" "IRN",
   bp "Naghadeh, Iran" "Iran" "IRN",
   bp "Ilam, Iran" "Iran" "IRN",
   bp "Mashhad, Iran" "Iran" "IRN",
   bp "Ardabil, Iran" "Iran" "IRN",
   bp "Iran" "Iran" "IRN",
   bp "Nayarit, Mexico" "Mexico" "MEX",
   bp "Sinaloa, Mexico" "Mexico" "MEX",
   bp "Baja California, Mexico" "Mexico" "MEX",
   bp "Jalisco, Mexico" "Mexico" "MEX",
   bp "Veracruz, Mexico" "Mexico" "MEX",
   bp "Jerez, Zacatecas, Mexico" "Mexico" "MEX",
   bp "Chuicopa, Sinaloa, Mexico" "Mexico" "MEX",
   bp "Mezquital del Oro, Zacatecas, Mexico" "Mexico" "MEX",
   bp "Zacatecas, Mexico" "Mexico" "MEX",
   bp "Colima, Mexico" "Mexico" "MEX",
   bp "Mexico City, Mexico" "Mexico" "MEX",
   bp "Hidalgo, Mexico" "Mexico" "MEX",
   bp "Durango, Mexico" "Mexico" "MEX",
   bp "Mexico" "Mexico" "MEX",
   bp "Jucuaran, Usulutan, El Salvador" "El Salvador" "SLV",
   bp "San Francisco Menendez, Ahuachapan, El Salvador" "El Salvador" "SLV",
   bp "San Salvador, San Salvador, El Salvador" "El Salvador" "SLV",
   bp "Ozatlan, Usulutan, El Salvador" "El Salvador" "SLV",
   bp "Ahuachapan, Ahuachapan, El Salvador" "El Salvador" "SLV",
   bp "Tejutla, Chalatenango, El Salvador" "El Salvador" "SLV",
   bp "Cuscatancingo, San Salvador, El Salvador" "El Salvador" "SLV",
   bp "Usulutan, Usulutan, El Salvador" "El Salvador" "SLV",
   bp "El Salvador" "El Salvador" "SLV",
   bp "Pyongyang, North Korea" "North Korea" "PRK",
   bpL ("Democratic People".data ++ [apos] ++ "s Republic of Korea (North Korea)".data)
       "North Korea" "PRK",
   bp "Kryvyi Rih, Dnipropetrovsk Oblast, Ukraine" "Ukraine" "UKR",
   bp "Kyiv, Ukraine" "Ukraine" "UKR",
   bp "Kiev, Ukraine" "Ukraine" "UKR",
   bp "Boryspil, Kyiv Oblast, Ukraine" "Ukraine" "UKR",
   bp "Ukraine" "Ukraine" "UKR",
   bp "Homs, Syria" "Syria" "SYR",
   bp "Damascus, Syria" "Syria" "SYR",
   bp "Allepo, Syria" "Syria" "SYR",
   bp "Syria" "Syria" "SYR",
   bp "San Juan, Puerto Rico" "Puerto Rico" "PRI",
   bp "Lajas, Puerto Rico" "Puerto Rico" "PRI",
   bp "Aguada, Puerto Rico" "Puerto Rico" "PRI",
   bp "Pakistan" "Pakistan" "PAK",
   bp "Pranpura, Haryana, India" "India" "IND",
   bp "Hyderabad, Pakistan" "Pakistan" "PAK",
   bp "Karachi, Pakistan" "Pakistan" "PAK",
   bp "India" "India" "IND",
   bp "Honduras" "Honduras" "HND",
   bp "Atlantida, Honduras" "Honduras" "HND",
   bp "Copan, Honduras" "Honduras" "HND",
   bp "Cambodia" "Cambodia" "KHM",
   bp "Uzbekistan" "Uzbekistan" "UZB",
   bp "Toy Teipa, Uzbekistan" "Uzbekistan" "UZB",
   bp "Haiti" "Haiti" "HTI",
   bp "Nigeria" "Nigeria" "NGA",
   bp "Minsk, Belarus" "Belarus" "BLR",
   bp "Jamaica" "Jamaica" "JAM",
   bp "Santiago, Dominican Republic" "Dominican Republic" "DOM",
   bp "Dominican Republic" "Dominican Republic" "DOM",
   bp "La Calera, Chile" "Chile" "CHL",
   bp "LaGuaira, Venezuela" "Venezuela" "VEN",
   bp "Venezuela" "Venezuela" "VEN",
   bp "Bangladesh" "Bangladesh" "BGD",
   bp "Riga, Latvia" "Latvia" "LVA",
   bp "Vietnam" "Vietnam" "VNM",
   bp "Republic of Vietnam" "Vietnam" "VNM",
   bp "Mong Cai, Quang Ninh Province, North Vietnam" "Vietnam" "VNM",
   bp "Quang Binh Province, Vietnam" "Vietnam" "VNM",
   bp "Sweden" "Sweden" "SWE",
   bp "Canada" "Canada" "CAN",
   bp "Bel Ombre, Mahe Island, Seychelles" "Seychelles" "SYC",
   bp "Spain" "Spain" "ESP",
   bp "Cuba" "Cuba" "CUB",
   bp "Turkey" "Turkey" "TUR",
   bp "Armenia" "Armenia" "ARM",
   bp "Ghana" "Ghana" "GHA",
   bp "Ecuador" "Ecuador" "ECU",
   bp "Guayaquil, Ecuador" "Ecuador" "ECU",
   bp "Brazil" "Brazil" "BRA",
   bp "Laos" "Laos" "LAO",
   bp "Philippines" "Philippines" "PHL",
   bp "Ilocos Norte, Philippines" "Philippines" "PHL",
   bp "Germany" "Germany" "DEU",
   bp "Sydney, Australia" "Australia" "AUS",
   bp "Sumqayit, Azerbaijan" "Azerbaijan" "AZE",
   bp "Muscat, Oman" "Oman" "OMN",
   bp "United Kingdom" "United Kingdom" "GBR",
   bp "Batroun, Lebanon" "Lebanon" "LBN",
   bp "Guatemala" "Guatemala" "GTM",
   ("Unknown".data, (none, none)),
   ("".data, (none, none))]

/-- The full `extract_country_from_birth_place`: absence for absent or
blank text; an exact lookup of the stripped place in the table; otherwise
the stripped text itself with an absent code. -/
def extract_country_from_birth_place (place : Option (List Char)) :
    Option (List Char) × Option (List Char) :=
  match place with
  | none => (none, none)
  | some raw =>
    if (pyStrip raw).isEmpty then (none, none)
    else
      let p := pyStrip raw
      match BIRTH_PLACE_MAPPING.find? (fun e => decide (e.1 = p)) with
      | some e => e.2
      | none => (some p, none)

/-! ### Language splitter and hair-color extractor -/

/-- Delimiter `[,;/]|\s+and\s+` with IGNORECASE. -/
def pLangDelim (_ : Option Char) : Pa Unit :=
  palt (pbind (pch (fun c => c = ',' || c = ';' || c = '/')) fun _ => ppure ())
    (pbind (prunPlus isPySpace) fun _ => pbind (pstrCI "and".data) fun _ =>
     pbind (prunPlus isPySpace) fun _ => ppure ())

/-- The full `split_languages`: up to the first three trimmed non-empty
segments, one option per output slot. -/
def split_languages (text : Option (List Char)) :
    Option (List Char) × Option (List Char) × Option (List Char) :=
  match text with
  | none => (none, none, none)
  | some raw =>
    if (pyStrip raw).isEmpty then (none, none, none)
    else
      let s := pyStrip raw
      let langs := ((reSplit pLangDelim s).map pyStrip).filter (fun l => !l.isEmpty)
      (langs.get? 0, langs.get? 1, langs.get? 2)

/-- Delimiter `[/\(]|\s+and\s+` with IGNORECASE. -/
def pHairDelim (_ : Option Char) : Pa Unit :=
  palt (pbind (pch (fun c => c = '/' || c = '(')) fun _ => ppure ())
    (pbind (prunPlus isPySpace) fun _ => pbind (pstrCI "and".data) fun _ =>
     pbind (prunPlus isPySpace) fun _ => ppure ())

/-- The full `extract_first_hair_color`: the first split segment, stripped;
absence when empty. -/
def extract_first_hair_color (hair : Option (List Char)) : Option (List Char) :=
  match hair with
  | none => none
  | some raw =>
    if (pyStrip raw).isEmpty then none
    else
      let h := pyStrip raw
      let hc := pyStrip ((reSplit pHairDelim h).headD [])
      if hc.isEmpty then none else some hc

/-! ### Boolean detectors (`detect_scars_marks`, `detect_dollar_amounts`) -/

/-- Pattern `\btattoo|ink\b`. -/
def pTattooInk (prev : Option Char) : Pa Unit :=
  palt (fun cs => if prevNonWord prev then (pstrE "tattoo".data) cs else [])
    (pbind (pstrE "ink".data) fun _ => pEndWordBoundary)

/-- Pattern `\bscar(s)?\b`. -/
def pScarKw (prev : Option Char) : Pa Unit := fun cs =>
  if prevNonWord prev then
    (pbind (pstrE "scar".data) fun _ => pbind (popt (plit 's')) fun _ =>
     pEndWordBoundary) cs
  else []

/-- Pattern `\bpierc(ed|ing|ings)\b`. -/
def pPiercKw (prev : Option Char) : Pa Unit := fun cs =>
  if prevNonWord prev then
    (pbind (pstrE "pierc".data) fun _ =>
     pbind (palt (pstrE "ed".data) (palt (pstrE "ing".data) (pstrE "ings".data)))
       fun _ => pEndWordBoundary) cs
  else []

/-- Pattern `\bburn(ed|s| mark)\b`. -/
def pBurnKw (prev : Option Char) : Pa Unit := fun cs =>
  if prevNonWord prev then
    (pbind (pstrE "burn".data) fun _ =>
     pbind (palt (pstrE "ed".data) (palt (pstrE "s".data) (pstrE " mark".data)))
       fun _ => pEndWordBoundary) cs
  else []

/-- Pattern `\bmissing\s+finger(s)?\b`. -/
def pMissingFingerKw (prev : Option Char) : Pa Unit := fun cs =>
  if prevNonWord prev then
    (pbind (pstrE "missing".data) fun _ => pbind pspaces1 fun _ =>
     pbind (pstrE "finger".data) fun _ => pbind (popt (plit 's')) fun _ =>
     pEndWordBoundary) cs
  else []

/-- Pattern `\bfreckle(s)?\b`. -/
def pFreckleKw (prev : Option Char) : Pa Unit := fun cs =>
  if prevNonWord prev then
    (pbind (pstrE "freckle".data) fun _ => pbind (popt (plit 's')) fun _ =>
     pEndWordBoundary) cs
  else []

/-- Pattern `\bmole\b`. -/
def pMoleKw (prev : Option Char) : Pa Unit := fun cs =>
  if prevNonWord prev then
    (pbind (pstrE "mole".data) fun _ => pEndWordBoundary) cs
  else []

/-- Pattern `\bbirthmark\b`. -/
def pBirthmarkKw (prev : Option Char) : Pa Unit := fun cs =>
  if prevNonWord prev then
    (pbind (pstrE "birthmark".data) fun _ => pEndWordBoundary) cs
  else []

/-- The `scar_keywords` pattern list, in source order. -/
def scarPatterns : List (Option Char → Pa Unit) :=
  [pTattooInk, pScarKw, pPiercKw, pBurnKw, pMissingFingerKw, pFreckleKw,
   pMoleKw, pBirthmarkKw]

/-- The full `detect_scars_marks`: false for absent or blank text,
otherwise true when any keyword pattern occurs in the lowercased text. -/
def detect_scars_marks (text : Option (List Char)) : Bool :=
  match text with
  | none => false
  | some raw =>
    if (pyStrip raw).isEmpty then false
    else
      let s := toLowerL raw
      scarPatterns.any (fun p => (regSearch p s).isSome)

/-- Pattern `\$\s*[\d,]+(?:\.\d{1,2})?`. -/
def pDollarAmount (_ : Option Char) : Pa Unit :=
  pbind (plit '$') fun _ => pbind pspaces0 fun _ =>
  pbind (prunPlus (fun c => isDigitC c || c = ',')) fun _ =>
  pbind (popt (pbind (plit '.') fun _ => pdigitsRange 1 2)) fun _ => ppure ()

/-- The full `detect_dollar_amounts`: false for absent or blank text,
otherwise true when a dollar amount occurs (case is untouched here). -/
def detect_dollar_amounts (text : Option (List Char)) : Bool :=
  match text with
  | none => false
  | some raw =>
    if (pyStrip raw).isEmpty then false
    else (regSearch pDollarAmount raw).isSome

/-! ### Cells and data frames

A cell is `Option Val` (`none` is pandas NaN/None).  A data frame keeps its
column order in `cols` and its rows as name-keyed functions; `df[c]` reads
the key `c`, `df[dst] = series` updates the key `dst` (appending `dst` to
the column order when new), dropping removes the name from the order, and
renaming relabels the order and re-keys the rows. -/

/-- A cell value. -/
inductive Val where
  | str (s : List Char)
  | intv (n : ℤ)
  | rat (d : Dec)
  | bool (b : Bool)
  | date (d : PDate)
deriving DecidableEq

/-- A cell: `none` is absence (NaN/None). -/
abbrev Cell := Option Val

/-- Zero-padded digit rendering. -/
def padDigits (k n : ℕ) : List Char :=
  let ds := Nat.toDigits 10 n
  List.replicate (k - ds.length) '0' ++ ds

/-- Python `str(x)` on a cell value.  String cells are returned as they
are; a `date` prints in padded ISO form as in Python.  The numeric and
boolean renderings model the exact value (all floats in this program are
terminating decimals); the pipeline never re-reads a numeric or boolean
column, so only the string and date cases are ever reached. -/
def pyStrVal : Val → List Char
  | .str s => s
  | .intv n => (if n < 0 then "-".data else []) ++ Nat.toDigits 10 n.natAbs
  | .rat d =>
    let ds := padDigits (d.exp + 1) d.mant
    if d.exp = 0 then ds ++ ".0".data
    else ds.take (ds.length - d.exp) ++ ".".data ++ ds.drop (ds.length - d.exp)
  | .bool b => if b then "True".data else "False".data
  | .date d => padDigits 4 d.year ++ "-".data ++ padDigits 2 d.month ++
               "-".data ++ padDigits 2 d.day

/-- Text of a cell: `pd.isna` on absence, `str(x)` otherwise. -/
def cellText : Cell → Option (List Char)
  | none => none
  | some v => some (pyStrVal v)

/-- Cell-level `count_aliases` (stored as `Int64`). -/
def countAliasesCell (c : Cell) : Cell := some (.intv (count_aliases (cellText c)))

/-- Cell-level `parse_date`. -/
def parseDateCell (c : Cell) : Cell := (parse_date (cellText c)).map .date

/-- Cell-level `compute_age` with the `TODAY` reference.  The column this
is applied to has just been parsed, so it holds date cells or absence;
`compute_age(None)` is `None`. -/
def computeAgeCell (c : Cell) : Cell :=
  match c with
  | some (.date d) => (compute_age (some d) TODAY).map .intv
  | _ => none

/-- Cell-level `zodiac_sign`, on the parsed date column. -/
def zodiacCell (c : Cell) : Cell :=
  match c with
  | some (.date d) => (zodiac_sign (some d)).map .str
  | _ => none

/-- Cell-level `categorize_occupation`. -/
def categorizeCell (c : Cell) : Cell :=
  some (.str (categorize_occupation (cellText c)))

/-- Cell-level country name from `extract_country_from_birth_place`. -/
def birthCountryCell (c : Cell) : Cell :=
  ((extract_country_from_birth_place (cellText c)).1).map .str

/-- Cell-level ISO code from `extract_country_from_birth_place`. -/
def birthCodeCell (c : Cell) : Cell :=
  ((extract_country_from_birth_place (cellText c)).2).map .str

/-- Cell-level first language slot. -/
def lang1Cell (c : Cell) : Cell := ((split_languages (cellText c)).1).map .str

/-- Cell-level second language slot. -/
def lang2Cell (c : Cell) : Cell := ((split_languages (cellText c)).2.1).map .str

/-- Cell-level third language slot. -/
def lang3Cell (c : Cell) : Cell := ((split_languages (cellText c)).2.2).map .str

/-- Cell-level `extract_first_hair_color`. -/
def hairCell (c : Cell) : Cell := (extract_first_hair_color (cellText c)).map .str

/-- Cell-level `parse_height_to_cm`. -/
def heightCell (c : Cell) : Cell := (parse_height_to_cm (cellText c)).map .rat

/-- Cell-level `parse_weight_to_kg`. -/
def weightCell (c : Cell) : Cell := (parse_weight_to_kg (cellText c)).map .rat

/-- Cell-level `detect_scars_marks` (stored as `bool`). -/
def scarsCell (c : Cell) : Cell := some (.bool (detect_scars_marks (cellText c)))

/-- Cell-level `detect_dollar_amounts` (stored as `bool`). -/
def dollarCell (c : Cell) : Cell := some (.bool (detect_dollar_amounts (cellText c)))

/-- A row, keyed by column name. -/
abbrev Row := String → Cell

/-- A data frame: ordered column labels and rows. -/
structure DF where
  cols : List String
  rows : List Row

/-- Column presence, `c in df.columns`. -/
def DF.hasCol (df : DF) (c : String) : Bool := decide (c ∈ df.cols)

/-- The assignment `df[dst] = df[src].apply(f)`: every row gets the value
of `f` on its `src` cell at key `dst`; a new label is appended to the
column order. -/
def DF.assign (df : DF) (dst src : String) (f : Cell → Cell) : DF where
  cols := if df.hasCol dst then df.cols else df.cols ++ [dst]
  rows := df.rows.map (fun r => Function.update r dst (f (r src)))

/-- The drop `df.drop(columns=[c])`: every column labelled `c` is removed
from the order. -/
def DF.dropCol (df : DF) (c : String) : DF where
  cols := df.cols.filter (fun x => x ≠ c)
  rows := df.rows

/-- One column of a data frame as a list of cells (empty when absent). -/
def DF.col (df : DF) (c : String) : List Cell :=
  if df.hasCol c then df.rows.map (fun r => r c) else []

/-! ### Pipeline stages (`process_*`, `clean_dataframe`) -/

/-- Stage `process_aliases`. -/
def process_aliases (df : DF) : DF :=
  if df.hasCol "alias" then df.assign "alias_count" "alias" countAliasesCell else df

/-- The date-of-birth column candidates, in probe order. -/
def dobCandidates : List String := ["Date(s) of Birth Used", "Date of Birth", "DOB"]

/-- Stage `process_dates_and_ages`: parse the first existing birth-date
column in place, then derive age and zodiac from the parsed column. -/
def process_dates_and_ages (df : DF) : DF :=
  match dobCandidates.find? (fun c => df.hasCol c) with
  | some dob =>
    (((df.assign dob dob parseDateCell).assign "age_years" dob computeAgeCell).assign
      "zodiac_sign" dob zodiacCell)
  | none => df

/-- Stage `process_occupations`. -/
def process_occupations (df : DF) : DF :=
  if df.hasCol "Occupation" then
    df.assign "occupation_category" "Occupation" categorizeCell
  else df

/-- Stage `process_birth_places` (two derived columns from one source). -/
def process_birth_places (df : DF) : DF :=
  if df.hasCol "Place of Birth" then
    (df.assign "birth_country" "Place of Birth" birthCountryCell).assign
      "birth_country_code" "Place of Birth" birthCodeCell
  else df

/-- Stage `process_languages` (three derived columns from one source). -/
def process_languages (df : DF) : DF :=
  if df.hasCol "Languages" then
    ((df.assign "Language_1" "Languages" lang1Cell).assign
      "Language_2" "Languages" lang2Cell).assign "Language_3" "Languages" lang3Cell
  else df

/-- Stage `process_hair_color`. -/
def process_hair_color (df : DF) : DF :=
  if df.hasCol "Hair" then df.assign "hair_color" "Hair" hairCell else df

/-- Stage `process_physical_measurements` (height and weight independent). -/
def process_physical_measurements (df : DF) : DF :=
  let d1 := if df.hasCol "Height" then df.assign "height_cm" "Height" heightCell else df
  if d1.hasCol "Weight" then d1.assign "weight_kg" "Weight" weightCell else d1

/-- Stage `process_marks_and_caution` (two independent boolean columns). -/
def process_marks_and_caution (df : DF) : DF :=
  let d1 := if df.hasCol "Scars and Marks" then
              df.assign "has_mark" "Scars and Marks" scarsCell
            else df
  if d1.hasCol "caution" then d1.assign "has_caution" "caution" dollarCell else d1

/-- The `cols_to_drop` list of `remove_unused_columns`, in source order. -/
def colsToDrop : List String :=
  ["image_url", "remarks", "race", "Race", "caution",
   "Height", "Weight", "Scars and Marks", "Build",
   "Citizenship", "Complexion", "Age",
   "Languages", "Occupation", "Place of Birth", "Hair"]

/-- Stage `remove_unused_columns`. -/
def remove_unused_columns (df : DF) : DF :=
  colsToDrop.foldl (fun d c => if d.hasCol c then d.dropCol c else d) df

/-- The `rename_map` of `rename_and_reorganize_columns`. -/
def renameMap : List (String × String) :=
  [("Date(s) of Birth Used", "date_of_birth"),
   ("Eyes", "eye_color"),
   ("Sex", "sex"),
   ("Nationality", "nationality"),
   ("NCIC", "ncic_number"),
   ("alias", "alias_text"),
   ("field_office", "fbi_field_office"),
   ("Language_1", "language_primary"),
   ("Language_2", "language_secondary"),
   ("Language_3", "language_tertiary")]

/-- Renaming of one label. -/
def renameFn (c : String) : String := (List.lookup c renameMap).getD c

/-- The rename `df.rename(columns=rename_map)`: labels are mapped in the
order, and a row answers a new label with the cell of the (first) old
label mapping to it. -/
def DF.renameCols (df : DF) : DF where
  cols := df.cols.map renameFn
  rows := df.rows.map (fun r c =>
    match df.cols.find? (fun s => decide (renameFn s = c)) with
    | some s => r s
    | none => r c)

/-- The fixed thematic `column_order` target. -/
def fixedColumnOrder : List String :=
  ["url", "name", "alias_text", "alias_count", "ncic_number", "category",
   "date_of_birth", "age_years", "zodiac_sign", "sex", "nationality",
   "birth_country", "birth_country_code",
   "height_cm", "weight_kg", "eye_color", "hair_color", "has_mark",
   "language_primary", "language_secondary", "language_tertiary",
   "occupation_category",
   "fbi_field_office", "has_caution"]

/-- The appending loop that adds any column not yet listed, in first-seen
order. -/
def appendMissing (acc : List String) (cs : List String) : List String :=
  cs.foldl (fun a c => if c ∈ a then a else a ++ [c]) acc

/-- The final column order: the fixed order filtered to existing columns,
then every remaining column. -/
def orderCols (cols : List String) : List String :=
  appendMissing (fixedColumnOrder.filter (fun c => decide (c ∈ cols))) cols

/-- Stage `rename_and_reorganize_columns`: rename, then select the columns
in the computed order (the order lists every column, so this only
reorders). -/
def rename_and_reorganize_columns (df : DF) : DF :=
  let d := df.renameCols
  { cols := orderCols d.cols, rows := d.rows }

/-- The full `clean_dataframe` stage chain. -/
def clean_dataframe (df : DF) : DF :=
  rename_and_reorganize_columns
    (remove_unused_columns
      (process_marks_and_caution
        (process_physical_measurements
          (process_hair_color
            (process_languages
              (process_birth_places
                (process_occupations
                  (process_dates_and_ages
                    (process_aliases df)))))))))

/-! ### Frame lemmas

Each pipeline operation preserves the number of rows, and preserves any
column it does not explicitly write, drop, or rename. -/

theorem hasCol_iff (df : DF) (c : String) : df.hasCol c = true ↔ c ∈ df.cols := by
  simp [DF.hasCol]

theorem hasCol_false (df : DF) (c : String) (h : c ∉ df.cols) : df.hasCol c = false := by
  simp [DF.hasCol, h]

theorem assign_rows_length (df : DF) (dst src : String) (f : Cell → Cell) :
    (df.assign dst src f).rows.length = df.rows.length := by
  simp [DF.assign]

theorem mem_assign_cols {df : DF} {dst src c : String} {f : Cell → Cell}
    (h : c ∈ (df.assign dst src f).cols) : c ∈ df.cols ∨ c = dst := by
  by_cases hd : df.hasCol dst = true <;> simp [DF.assign, hd] at h
  · exact Or.inl h
  · exact h

theorem mem_assign_cols_of_mem {df : DF} {dst src c : String} {f : Cell → Cell}
    (h : c ∈ df.cols) : c ∈ (df.assign dst src f).cols := by
  by_cases hd : df.hasCol dst = true <;> simp [DF.assign, hd]
  · exact h
  · exact Or.inl h

theorem assign_col_ne (df : DF) {dst c : String} (src : String) (f : Cell → Cell)
    (h : c ≠ dst) : (df.assign dst src f).col c = df.col c := by
  have hup : ∀ r : Row, ∀ v, Function.update r dst v c = r c :=
    fun r v => Function.update_noteq h v r
  unfold DF.col DF.assign DF.hasCol
  by_cases hd : dst ∈ df.cols <;> by_cases hc : c ∈ df.cols <;>
    simp [hd, hc, h, hup]

theorem assign_col_dst (df : DF) (dst src : String) (f : Cell → Cell) :
    (df.assign dst src f).col dst = df.rows.map (fun r => f (r src)) := by
  unfold DF.col DF.assign DF.hasCol
  by_cases hd : dst ∈ df.cols <;> simp [hd, Function.update_same]

theorem dropCol_rows (df : DF) (c : String) : (df.dropCol c).rows = df.rows := rfl

theorem mem_dropCol {df : DF} {c d : String} :
    c ∈ (df.dropCol d).cols ↔ c ∈ df.cols ∧ c ≠ d := by
  simp [DF.dropCol]

theorem dropCol_col_ne (df : DF) {c d : String} (h : c ≠ d) :
    (df.dropCol d).col c = df.col c := by
  unfold DF.col
  by_cases hc : c ∈ df.cols
  · rw [if_pos, if_pos, dropCol_rows]
    · exact (hasCol_iff df c).mpr hc
    · exact (hasCol_iff _ c).mpr (mem_dropCol.mpr ⟨hc, h⟩)
  · rw [if_neg, if_neg]
    · intro hx
      exact hc ((hasCol_iff df c).mp hx)
    · intro hx
      exact hc (mem_dropCol.mp ((hasCol_iff _ c).mp hx)).1

theorem lookup_mem {α β : Type} [BEq α] [LawfulBEq α] :
    ∀ (l : List (α × β)) (a : α) (b : β), List.lookup a l = some b → (a, b) ∈ l := by
  intro l
  induction l with
  | nil => intro a b h; simp [List.lookup] at h
  | cons p t ih =>
    intro a b h
    rw [List.lookup] at h
    cases hab : a == p.1 with
    | true =>
      rw [hab] at h
      simp only at h
      cases h
      have ha : a = p.1 := eq_of_beq hab
      have hp : (a, p.2) = p := by rw [ha]
      rw [hp]
      exact List.mem_cons_self p t
    | false =>
      rw [hab] at h
      simp only at h
      right
      exact ih a b h

theorem find?_congr_mem {α : Type} (p q : α → Bool) :
    ∀ (l : List α), (∀ x ∈ l, p x = q x) → l.find? p = l.find? q := by
  intro l
  induction l with
  | nil => intro _; rfl
  | cons x t ih =>
    intro h
    rw [List.find?_cons, List.find?_cons, h x (by simp)]
    cases hq : q x
    · exact ih (fun y hy => h y (by simp [hy]))
    · rfl

theorem renameFn_fixed {c : String} (hs : List.lookup c renameMap = none)
    (ht : ∀ p ∈ renameMap, p.2 ≠ c) (s : String) : renameFn s = c ↔ s = c := by
  constructor
  · intro h
    cases hl : List.lookup s renameMap with
    | some t =>
      have hmem : (s, t) ∈ renameMap := lookup_mem _ _ _ hl
      have hfn : renameFn s = t := by simp [renameFn, hl]
      rw [hfn] at h
      exact absurd h (ht (s, t) hmem)
    | none =>
      have hfn : renameFn s = s := by simp [renameFn, hl]
      rw [hfn] at h
      exact h
  · intro h
    subst h
    simp [renameFn, hs]

theorem renameCols_rows_length (df : DF) :
    df.renameCols.rows.length = df.rows.length := by
  simp [DF.renameCols]

theorem mem_renameCols {df : DF} {c : String} :
    c ∈ df.renameCols.cols ↔ ∃ s ∈ df.cols, renameFn s = c := by
  simp [DF.renameCols]

theorem renameCols_col_untouched (df : DF) {c : String}
    (hs : List.lookup c renameMap = none) (ht : ∀ p ∈ renameMap, p.2 ≠ c) :
    df.renameCols.col c = df.col c := by
  have hfn : ∀ s, renameFn s = c ↔ s = c := renameFn_fixed hs ht
  have hmem : c ∈ df.renameCols.cols ↔ c ∈ df.cols := by
    rw [mem_renameCols]
    constructor
    · rintro ⟨s, hsm, hrf⟩
      rw [(hfn s).mp hrf] at hsm
      exact hsm
    · intro hcm
      exact ⟨c, hcm, (hfn c).mpr rfl⟩
  have hfind : df.cols.find? (fun s => decide (renameFn s = c)) =
      df.cols.find? (fun s => decide (s = c)) :=
    find?_congr_mem _ _ _ (fun x _ => by simp [hfn x])
  unfold DF.col
  by_cases hc : c ∈ df.cols
  · rw [if_pos ((hasCol_iff _ _).mpr (hmem.mpr hc)), if_pos ((hasCol_iff _ _).mpr hc)]
    simp only [DF.renameCols, List.map_map]
    apply List.map_congr_left
    intro r _
    simp only [Function.comp]
    rw [hfind]
    cases hf : df.cols.find? (fun s => decide (s = c)) with
    | some s =>
      have hse := List.find?_some hf
      simp only [decide_eq_true_eq] at hse
      rw [hse]
    | none => rfl
  · rw [if_neg, if_neg]
    · intro hx
      exact hc ((hasCol_iff _ _).mp hx)
    · intro hx
      exact hc (hmem.mp ((hasCol_iff _ _).mp hx))

theorem renameCols_id (df : DF) (h : ∀ s ∈ df.cols, List.lookup s renameMap = none) :
    df.renameCols = df := by
  have hfx : ∀ s ∈ df.cols, renameFn s = s := fun s hs => by simp [renameFn, h s hs]
  have hcols : df.cols.map renameFn = df.cols := by
    rw [List.map_congr_left hfx]
    exact List.map_id df.cols
  have hrows : df.rows.map (fun r c =>
      match df.cols.find? (fun s => decide (renameFn s = c)) with
      | some s => r s
      | none => r c) = df.rows := by
    have hone : ∀ r : Row, (fun c =>
        match df.cols.find? (fun s => decide (renameFn s = c)) with
        | some s => r s
        | none => r c) = r := by
      intro r
      funext c
      have hfind : df.cols.find? (fun s => decide (renameFn s = c)) =
          df.cols.find? (fun s => decide (s = c)) :=
        find?_congr_mem _ _ _ (fun x hx => by rw [hfx x hx])
      simp only [hfind]
      cases hf : df.cols.find? (fun s => decide (s = c)) with
      | some s =>
        have hse := List.find?_some hf
        simp only [decide_eq_true_eq] at hse
        rw [hse]
      | none => rfl
    calc df.rows.map (fun r c =>
        match df.cols.find? (fun s => decide (renameFn s = c)) with
        | some s => r s
        | none => r c) = df.rows.map id := List.map_congr_left (fun r _ => hone r)
      _ = df.rows := List.map_id df.rows
  cases df with
  | mk cols rows =>
    simp only [DF.renameCols] at hcols hrows ⊢
    rw [hcols, hrows]

theorem appendMissing_nil (acc : List String) : appendMissing acc [] = acc := rfl

theorem appendMissing_cons (acc : List String) (c : String) (t : List String) :
    appendMissing acc (c :: t) =
      appendMissing (if c ∈ acc then acc else acc ++ [c]) t := rfl

theorem mem_appendMissing {x : String} :
    ∀ (cs acc : List String), x ∈ appendMissing acc cs ↔ x ∈ acc ∨ x ∈ cs := by
  intro cs
  induction cs with
  | nil =>
    intro acc
    simp [appendMissing_nil]
  | cons c t ih =>
    intro acc
    rw [appendMissing_cons, ih]
    by_cases hc : c ∈ acc
    · rw [if_pos hc]
      constructor
      · rintro (h1 | h1)
        · exact Or.inl h1
        · exact Or.inr (List.mem_cons_of_mem c h1)
      · rintro (h1 | h1)
        · exact Or.inl h1
        · rcases List.mem_cons.mp h1 with h2 | h2
          · exact Or.inl (h2 ▸ hc)
          · exact Or.inr h2
    · rw [if_neg hc]
      constructor
      · rintro (h1 | h1)
        · rcases List.mem_append.mp h1 with h2 | h2
          · exact Or.inl h2
          · exact Or.inr (List.mem_cons.mpr (Or.inl (List.mem_singleton.mp h2)))
        · exact Or.inr (List.mem_cons_of_mem c h1)
      · rintro (h1 | h1)
        · exact Or.inl (List.mem_append.mpr (Or.inl h1))
        · rcases List.mem_cons.mp h1 with h2 | h2
          · exact Or.inl (List.mem_append.mpr (Or.inr (by simp [h2])))
          · exact Or.inr h2

theorem appendMissing_tail :
    ∀ (cs acc : List String), ∃ t, appendMissing acc cs = acc ++ t ∧ t.Nodup ∧
      (∀ x ∈ t, x ∉ acc) := by
  intro cs
  induction cs with
  | nil =>
    intro acc
    exact ⟨[], by simp [appendMissing_nil], List.nodup_nil, by simp⟩
  | cons c t ih =>
    intro acc
    rw [appendMissing_cons]
    by_cases hc : c ∈ acc
    · rw [if_pos hc]
      exact ih acc
    · rw [if_neg hc]
      obtain ⟨t2, ht2, hnd, hnm⟩ := ih (acc ++ [c])
      refine ⟨c :: t2, ?_, ?_, ?_⟩
      · rw [ht2, List.append_assoc]
        rfl
      · exact List.nodup_cons.mpr ⟨fun hx => (hnm c hx) (by simp), hnd⟩
      · intro x hx
        rcases List.mem_cons.mp hx with h2 | h2
        · rw [h2]
          exact hc
        · intro hxa
          exact (hnm x h2) (List.mem_append.mpr (Or.inl hxa))

theorem appendMissing_of_subset :
    ∀ (cs acc : List String), (∀ c ∈ cs, c ∈ acc) → appendMissing acc cs = acc := by
  intro cs
  induction cs with
  | nil =>
    intro acc _
    rfl
  | cons c t ih =>
    intro acc h
    rw [appendMissing_cons, if_pos (h c (by simp))]
    exact ih acc (fun x hx => h x (by simp [hx]))

theorem appendMissing_disjoint :
    ∀ (cs acc : List String), cs.Nodup → (∀ c ∈ cs, c ∉ acc) →
      appendMissing acc cs = acc ++ cs := by
  intro cs
  induction cs with
  | nil =>
    intro acc _ _
    simp [appendMissing_nil]
  | cons c t ih =>
    intro acc hnd hdis
    rw [appendMissing_cons, if_neg (hdis c (by simp))]
    rw [ih (acc ++ [c]) (List.nodup_cons.mp hnd).2 ?_]
    · simp
    · intro x hx hmem
      rcases List.mem_append.mp hmem with h2 | h2
      · exact (hdis x (by simp [hx])) h2
      · have hxc : x = c := by simpa using h2
        exact (List.nodup_cons.mp hnd).1 (hxc ▸ hx)

theorem appendMissing_append (acc l1 l2 : List String) :
    appendMissing acc (l1 ++ l2) = appendMissing (appendMissing acc l1) l2 :=
  List.foldl_append _ _ _ _

theorem mem_orderCols {x : String} {cols : List String} :
    x ∈ orderCols cols ↔ x ∈ cols := by
  unfold orderCols
  rw [mem_appendMissing]
  constructor
  · rintro (h1 | h1)
    · exact of_decide_eq_true (List.mem_filter.mp h1).2
    · exact h1
  · intro h
    exact Or.inr h

theorem orderCols_idem (cols : List String) : orderCols (orderCols cols) = orderCols cols := by
  obtain ⟨t, ht, hnd, hnm⟩ :=
    appendMissing_tail cols (fixedColumnOrder.filter (fun c => decide (c ∈ cols)))
  have horder : orderCols cols =
      fixedColumnOrder.filter (fun c => decide (c ∈ cols)) ++ t := ht
  have hmemO : ∀ x, x ∈ orderCols cols ↔ x ∈ cols := fun x => mem_orderCols
  have hbase : fixedColumnOrder.filter (fun c => decide (c ∈ orderCols cols)) =
      fixedColumnOrder.filter (fun c => decide (c ∈ cols)) :=
    List.filter_congr (fun x _ => by simp [hmemO x])
  have htsub : ∀ x ∈ t, x ∈ cols := by
    intro x hx
    have hxo : x ∈ orderCols cols := by
      rw [horder]
      exact List.mem_append.mpr (Or.inr hx)
    exact (hmemO x).mp hxo
  conv_lhs => rw [horder]
  unfold orderCols
  rw [← horder, hbase, horder, appendMissing_append]
  rw [appendMissing_of_subset _ _ (fun c hc => hc)]
  rw [appendMissing_disjoint _ _ hnd hnm]
  exact ht.symm

theorem reorganize_rows_length (df : DF) :
    (rename_and_reorganize_columns df).rows.length = df.rows.length := by
  simp [rename_and_reorganize_columns, renameCols_rows_length]

theorem reorganize_col (df : DF) {c : String}
    (hs : List.lookup c renameMap = none) (ht : ∀ p ∈ renameMap, p.2 ≠ c) :
    (rename_and_reorganize_columns df).col c = df.col c := by
  have h1 : (rename_and_reorganize_columns df).col c = df.renameCols.col c := by
    unfold DF.col rename_and_reorganize_columns
    by_cases hc : c ∈ df.renameCols.cols
    · rw [if_pos ((hasCol_iff _ _).mpr (mem_orderCols.mpr hc)),
        if_pos ((hasCol_iff _ _).mpr hc)]
    · rw [if_neg, if_neg]
      · intro hx
        exact hc ((hasCol_iff _ _).mp hx)
      · intro hx
        exact hc (mem_orderCols.mp ((hasCol_iff _ _).mp hx))
  rw [h1, renameCols_col_untouched df hs ht]

/-! ### Stage lemmas: each stage preserves every column it does not write,
and the number of rows. -/

theorem process_aliases_col (df : DF) {c : String} (h : c ≠ "alias_count") :
    (process_aliases df).col c = df.col c := by
  unfold process_aliases
  by_cases hA : df.hasCol "alias" = true
  · rw [if_pos hA]
    exact assign_col_ne df _ _ h
  · rw [if_neg hA]

theorem process_dates_col (df : DF) {c : String}
    (h1 : c ≠ "age_years") (h2 : c ≠ "zodiac_sign") (h3 : c ∉ dobCandidates) :
    (process_dates_and_ages df).col c = df.col c := by
  unfold process_dates_and_ages
  cases hf : dobCandidates.find? (fun x => df.hasCol x) with
  | none => rfl
  | some dob =>
    have hdob : dob ∈ dobCandidates := List.mem_of_find?_eq_some hf
    have hcd : c ≠ dob := fun he => h3 (he ▸ hdob)
    rw [assign_col_ne _ _ _ h2, assign_col_ne _ _ _ h1, assign_col_ne _ _ _ hcd]

theorem process_occupations_col (df : DF) {c : String} (h : c ≠ "occupation_category") :
    (process_occupations df).col c = df.col c := by
  unfold process_occupations
  by_cases hA : df.hasCol "Occupation" = true
  · rw [if_pos hA]
    exact assign_col_ne df _ _ h
  · rw [if_neg hA]

theorem process_birth_places_col (df : DF) {c : String}
    (h1 : c ≠ "birth_country") (h2 : c ≠ "birth_country_code") :
    (process_birth_places df).col c = df.col c := by
  unfold process_birth_places
  by_cases hA : df.hasCol "Place of Birth" = true
  · rw [if_pos hA, assign_col_ne _ _ _ h2, assign_col_ne _ _ _ h1]
  · rw [if_neg hA]

theorem process_languages_col (df : DF) {c : String}
    (h1 : c ≠ "Language_1") (h2 : c ≠ "Language_2") (h3 : c ≠ "Language_3") :
    (process_languages df).col c = df.col c := by
  unfold process_languages
  by_cases hA : df.hasCol "Languages" = true
  · rw [if_pos hA, assign_col_ne _ _ _ h3, assign_col_ne _ _ _ h2,
      assign_col_ne _ _ _ h1]
  · rw [if_neg hA]

theorem process_hair_color_col (df : DF) {c : String} (h : c ≠ "hair_color") :
    (process_hair_color df).col c = df.col c := by
  unfold process_hair_color
  by_cases hA : df.hasCol "Hair" = true
  · rw [if_pos hA]
    exact assign_col_ne df _ _ h
  · rw [if_neg hA]

theorem process_physical_col (df : DF) {c : String}
    (h1 : c ≠ "height_cm") (h2 : c ≠ "weight_kg") :
    (process_physical_measurements df).col c = df.col c := by
  unfold process_physical_measurements
  by_cases hA : df.hasCol "Height" = true <;>
    [rw [if_pos hA]; rw [if_neg hA]] <;>
    [skip; skip] <;> dsimp only <;>
    first
    | (by_cases hB : ((df.assign "height_cm" "Height" heightCell).hasCol "Weight") = true
       · rw [if_pos hB, assign_col_ne _ _ _ h2, assign_col_ne _ _ _ h1]
       · rw [if_neg hB, assign_col_ne _ _ _ h1])
    | (by_cases hB : (df.hasCol "Weight") = true
       · rw [if_pos hB, assign_col_ne _ _ _ h2]
       · rw [if_neg hB])

theorem process_marks_col (df : DF) {c : String}
    (h1 : c ≠ "has_mark") (h2 : c ≠ "has_caution") :
    (process_marks_and_caution df).col c = df.col c := by
  unfold process_marks_and_caution
  by_cases hA : df.hasCol "Scars and Marks" = true <;>
    [rw [if_pos hA]; rw [if_neg hA]] <;> dsimp only <;>
    first
    | (by_cases hB : ((df.assign "has_mark" "Scars and Marks" scarsCell).hasCol "caution") = true
       · rw [if_pos hB, assign_col_ne _ _ _ h2, assign_col_ne _ _ _ h1]
       · rw [if_neg hB, assign_col_ne _ _ _ h1])
    | (by_cases hB : (df.hasCol "caution") = true
       · rw [if_pos hB, assign_col_ne _ _ _ h2]
       · rw [if_neg hB])

theorem foldl_drop_col {c : String} :
    ∀ (l : List String) (df : DF), c ∉ l →
      (l.foldl (fun d x => if d.hasCol x then d.dropCol x else d) df).col c = df.col c := by
  intro l
  induction l with
  | nil =>
    intro df _
    rfl
  | cons x t ih =>
    intro df h
    have hcx : c ≠ x := fun he => h (by simp [he])
    have ht : c ∉ t := fun hm => h (by simp [hm])
    rw [List.foldl_cons, ih _ ht]
    by_cases hx : df.hasCol x = true
    · rw [if_pos hx]
      exact dropCol_col_ne df hcx
    · rw [if_neg hx]

theorem remove_unused_col (df : DF) {c : String} (h : c ∉ colsToDrop) :
    (remove_unused_columns df).col c = df.col c :=
  foldl_drop_col _ _ h

theorem process_aliases_len (df : DF) :
    (process_aliases df).rows.length = df.rows.length := by
  unfold process_aliases
  by_cases hA : df.hasCol "alias" = true
  · rw [if_pos hA, assign_rows_length]
  · rw [if_neg hA]

theorem process_dates_len (df : DF) :
    (process_dates_and_ages df).rows.length = df.rows.length := by
  unfold process_dates_and_ages
  cases hf : dobCandidates.find? (fun x => df.hasCol x) with
  | none => rfl
  | some dob => rw [assign_rows_length, assign_rows_length, assign_rows_length]

theorem process_occupations_len (df : DF) :
    (process_occupations df).rows.length = df.rows.length := by
  unfold process_occupations
  by_cases hA : df.hasCol "Occupation" = true
  · rw [if_pos hA, assign_rows_length]
  · rw [if_neg hA]

theorem process_birth_places_len (df : DF) :
    (process_birth_places df).rows.length = df.rows.length := by
  unfold process_birth_places
  by_cases hA : df.hasCol "Place of Birth" = true
  · rw [if_pos hA, assign_rows_length, assign_rows_length]
  · rw [if_neg hA]

theorem process_languages_len (df : DF) :
    (process_languages df).rows.length = df.rows.length := by
  unfold process_languages
  by_cases hA : df.hasCol "Languages" = true
  · rw [if_pos hA, assign_rows_length, assign_rows_length, assign_rows_length]
  · rw [if_neg hA]

theorem process_hair_color_len (df : DF) :
    (process_hair_color df).rows.length = df.rows.length := by
  unfold process_hair_color
  by_cases hA : df.hasCol "Hair" = true
  · rw [if_pos hA, assign_rows_length]
  · rw [if_neg hA]

theorem process_physical_len (df : DF) :
    (process_physical_measurements df).rows.length = df.rows.length := by
  unfold process_physical_measurements
  by_cases hA : df.hasCol "Height" = true <;>
    [rw [if_pos hA]; rw [if_neg hA]] <;> dsimp only <;>
    first
    | (by_cases hB : ((df.assign "height_cm" "Height" heightCell).hasCol "Weight") = true
       · rw [if_pos hB, assign_rows_length, assign_rows_length]
       · rw [if_neg hB, assign_rows_length])
    | (by_cases hB : (df.hasCol "Weight") = true
       · rw [if_pos hB, assign_rows_length]
       · rw [if_neg hB])

theorem process_marks_len (df : DF) :
    (process_marks_and_caution df).rows.length = df.rows.length := by
  unfold process_marks_and_caution
  by_cases hA : df.hasCol "Scars and Marks" = true <;>
    [rw [if_pos hA]; rw [if_neg hA]] <;> dsimp only <;>
    first
    | (by_cases hB : ((df.assign "has_mark" "Scars and Marks" scarsCell).hasCol "caution") = true
       · rw [if_pos hB, assign_rows_length, assign_rows_length]
       · rw [if_neg hB, assign_rows_length])
    | (by_cases hB : (df.hasCol "caution") = true
       · rw [if_pos hB, assign_rows_length]
       · rw [if_neg hB])

theorem foldl_drop_len :
    ∀ (l : List String) (df : DF),
      (l.foldl (fun d x => if d.hasCol x then d.dropCol x else d) df).rows.length =
        df.rows.length := by
  intro l
  induction l with
  | nil =>
    intro df
    rfl
  | cons x t ih =>
    intro df
    rw [List.foldl_cons, ih]
    by_cases hx : df.hasCol x = true
    · rw [if_pos hx]
      rfl
    · rw [if_neg hx]

theorem remove_unused_len (df : DF) :
    (remove_unused_columns df).rows.length = df.rows.length :=
  foldl_drop_len _ _

/-- Claim C2: for every input record set, `clean_dataframe` preserves the
row count and, row for row and in order, the identification column `url`:
the output `url` column is exactly the input `url` column, so rows are
never dropped, merged, or reordered. -/
theorem C2_row_count_and_identity (df : DF) :
    (clean_dataframe df).rows.length = df.rows.length ∧
    (clean_dataframe df).col "url" = df.col "url" := by
  constructor
  · unfold clean_dataframe
    rw [reorganize_rows_length, remove_unused_len, process_marks_len,
      process_physical_len, process_hair_color_len, process_languages_len,
      process_birth_places_len, process_occupations_len, process_dates_len,
      process_aliases_len]
  · unfold clean_dataframe
    rw [reorganize_col _ (by decide) (by decide),
      remove_unused_col _ (by decide),
      process_marks_col _ (by decide) (by decide),
      process_physical_col _ (by decide) (by decide),
      process_hair_color_col _ (by decide),
      process_languages_col _ (by decide) (by decide) (by decide),
      process_birth_places_col _ (by decide) (by decide),
      process_occupations_col _ (by decide),
      process_dates_col _ (by decide) (by decide) (by decide),
      process_aliases_col _ (by decide)]

/-! ### Claim theorems -/

/-- Claim C1 (code-bug evidence): on the bare slashed string the strptime
format `%m/%d/%y` matches first and applies the POSIX pivot (00..68 to the
2000s), so `parse_date("04/13/61")` is April 13, **2061**, not 1961;
`"04/13/05"` is 2005 as the spec says; and the documented `> 25 means
1900s` rule of `_parse_date_with_regex` takes effect only when the slashed
date is embedded in surrounding text, where every whole-string format
fails: `"born 04/13/61"` is April 13, 1961 — the same date text parses to
two different centuries depending on surrounding words. -/
theorem C1_two_digit_year_eval :
    parse_date (some "04/13/61".data) = some ⟨2061, 4, 13⟩ ∧
    parse_date (some "04/13/05".data) = some ⟨2005, 4, 13⟩ ∧
    parse_date (some "born 04/13/61".data) = some ⟨1961, 4, 13⟩ := by
  exact ⟨by decide, by decide, by decide⟩

/-- Claim C7: the height parser meets the spec's boundary cases exactly:
`"180 cm"` gives 180.0, `"1.8 m"` gives 180.0, `"5'11"` gives 180.3,
`"71 inches"` gives 180.3, and the ambiguous bare `"70"` is read as inches
(50 ≤ 70 ≤ 90) giving 177.8; each value is produced by the first
successful rule of the fixed chain. -/
theorem C7_height_boundary_cases :
    (parse_height_to_cm (some "180 cm".data)).map Dec.val = some 180 ∧
    (parse_height_to_cm (some "1.8 m".data)).map Dec.val = some 180 ∧
    (parse_height_to_cm (some ['5', apos, '1', '1'])).map Dec.val = some (1803 / 10) ∧
    (parse_height_to_cm (some "71 inches".data)).map Dec.val = some (1803 / 10) ∧
    (parse_height_to_cm (some "70".data)).map Dec.val = some (1778 / 10) := by
  refine ⟨?_, ?_, ?_, ?_, ?_⟩
  · have h : parse_height_to_cm (some "180 cm".data) = some ⟨180, 0⟩ := by decide
    rw [h]
    norm_num [Dec.val]
  · have h : parse_height_to_cm (some "1.8 m".data) = some ⟨1800, 1⟩ := by decide
    rw [h]
    norm_num [Dec.val]
  · have h : parse_height_to_cm (some ['5', apos, '1', '1']) = some ⟨1803, 1⟩ := by decide
    rw [h]
    norm_num [Dec.val]
  · have h : parse_height_to_cm (some "71 inches".data) = some ⟨1803, 1⟩ := by decide
    rw [h]
    norm_num [Dec.val]
  · have h : parse_height_to_cm (some "70".data) = some ⟨1778, 1⟩ := by decide
    rw [h]
    norm_num [Dec.val]

/-- The twelve sign names of the zodiac table. -/
def zodiacSignNames : List (List Char) := zodiacRanges.map (fun e => e.sign)

/-- Claim C10: the zodiac classifier is total over dates: absence in gives
absence out, every (month, day) yields one of the twelve sign names (the
final Capricorn entry catches anything no earlier range matched), and in
particular both Capricorn half-ranges fall through to the catch-all. -/
theorem zodiacLoop_mem :
    ∀ (l : List ZEntry) (m d : ℕ) (s : List Char),
      zodiacLoop l m d = some s → s ∈ l.map (fun e => e.sign) := by
  intro l
  induction l with
  | nil =>
    intro m d s h
    cases h
  | cons e t ih =>
    intro m d s h
    rw [zodiacLoop] at h
    by_cases hc : zodiacMatches e m d = true
    · rw [if_pos hc] at h
      cases h
      exact List.mem_map.mpr ⟨e, by simp, rfl⟩
    · rw [if_neg hc] at h
      rw [List.map_cons]
      exact List.mem_cons_of_mem _ (ih m d s h)

theorem zodiacLoop_total :
    ∀ (l : List ZEntry) (m d : ℕ), (∃ e ∈ l, e.zstart = none) →
      ∃ s, zodiacLoop l m d = some s := by
  intro l
  induction l with
  | nil =>
    rintro m d ⟨e, he, _⟩
    cases he
  | cons e t ih =>
    rintro m d ⟨e2, he2, hst⟩
    rw [zodiacLoop]
    by_cases hc : zodiacMatches e m d = true
    · rw [if_pos hc]
      exact ⟨e.sign, rfl⟩
    · rw [if_neg hc]
      rcases List.mem_cons.mp he2 with h1 | h1
      · subst h1
        exact absurd (by rw [zodiacMatches, hst]) hc
      · exact ih m d ⟨e2, h1, hst⟩

theorem C10_zodiac_total :
    zodiac_sign none = none ∧
    (∀ y m d : ℕ, ∃ s ∈ zodiacSignNames, zodiac_sign (some ⟨y, m, d⟩) = some s) ∧
    (∀ y : ℕ, zodiac_sign (some ⟨y, 1, 10⟩) = some "Capricorn".data) ∧
    (∀ y : ℕ, zodiac_sign (some ⟨y, 12, 25⟩) = some "Capricorn".data) := by
  refine ⟨rfl, ?_, fun y => rfl, fun y => rfl⟩
  intro y m d
  obtain ⟨s, hs⟩ := zodiacLoop_total zodiacRanges m d
    ⟨⟨none, none, "Capricorn".data⟩, by decide, rfl⟩
  exact ⟨s, zodiacLoop_mem _ _ _ _ hs, hs⟩

/-- C3 counterexample: the centimeter rule accepts any 2-3 digit number and
returns it unclamped, so `"999 cm"` yields 999.0, violating the claimed
invariant `0 ≤ height_cm ≤ 300`. -/
theorem C3_counterexample_height_bound :
    parse_height_to_cm (some "999 cm".data) = some ⟨999, 0⟩ ∧
    ¬ ((Dec.mk 999 0).val ≤ 300) := by
  constructor
  · decide
  · norm_num [Dec.val]

/-- C3 amended: every derived height is absent or a non-negative value (the
digit-only captures cannot produce negatives, and absence is the explicit
`none`, never a sentinel), and every derived age is absent or non-negative;
the upper bound 300 for heights is not enforced by the code. -/
theorem C3_amended_domains :
    (∀ (t : Option (List Char)) (v : Dec), parse_height_to_cm t = some v → 0 ≤ v.val) ∧
    (∀ (b : Option PDate) (ref : PDate) (a : ℤ), compute_age b ref = some a → 0 ≤ a) := by
  constructor
  · intro t v _
    unfold Dec.val
    positivity
  · intro b ref a h
    cases b with
    | none => exact absurd h (by simp [compute_age])
    | some bd =>
      unfold compute_age at h
      dsimp only at h
      split_ifs at h with h1 h2 h3 <;> simp_all <;> omega

/-- C3 amended witness: the rules applied at `"180 cm"` and at the birth
date 1961-04-13 with the fixed reference date. -/
theorem C3_amended_domains_witness :
    (0 : ℚ) ≤ (Dec.mk 180 0).val ∧ (0 : ℤ) ≤ 64 := by
  constructor
  · exact C3_amended_domains.1 (some "180 cm".data) ⟨180, 0⟩ (by decide)
  · exact C3_amended_domains.2 (some ⟨1961, 4, 13⟩) TODAY 64 (by decide)

/-- A Python exception raised by a field parse. -/
inductive PyFault
  | fault
deriving DecidableEq

/-- Embedding of `pandas.Series.apply` over a fault-capable field function:
the `process_*` stages of `clean_dataframe` contain no try/except, so in
`df[col].apply(f)` a fault raised on one cell aborts the whole column
application and propagates out of the stage. -/
def applyColumnE (f : Cell → Except PyFault Cell) : List Cell → Except PyFault (List Cell)
  | [] => .ok []
  | c :: t =>
    match f c with
    | .error e => .error e
    | .ok v =>
      match applyColumnE f t with
      | .error e => .error e
      | .ok vs => .ok (v :: vs)

/-- A field parse raising an unexpected fault on one particular record
value — the concrete instance of the claim's universally quantified
faulting parser (on every other cell it behaves like the alias counter). -/
def demoFaultingParse (c : Cell) : Except PyFault Cell :=
  if c = some (.str "BOOM".data) then .error .fault else .ok (countAliasesCell c)

/-- A three-record column whose middle record makes the parse fault. -/
def demoColumn : List Cell :=
  [some (.str "ok".data), some (.str "BOOM".data), some (.str "x".data)]

/-- C4 counterexample: with a parser faulting on the middle record of a
three-record column, the stage application returns an error — it does not
return any record set at all, so the fault is not converted to absence for
that record and the other records are not processed. -/
theorem C4_counterexample_fault_aborts :
    applyColumnE demoFaultingParse demoColumn = .error .fault ∧
    ∀ out : List Cell, applyColumnE demoFaultingParse demoColumn ≠ .ok out := by
  have hrun : applyColumnE demoFaultingParse demoColumn = .error .fault := by rfl
  refine ⟨hrun, fun out h => ?_⟩
  rw [hrun] at h
  exact Except.noConfusion h

/-- C4 amended: the stages contain no per-record fault handling — a fault
raised by the field parse on any cell of the column makes the whole
column application error out.  (The pipeline avoids this in practice only
because each scalar parser is itself total, returning absence or a default
for unparseable text.) -/
theorem C4_amended_fault_propagates :
    ∀ (f : Cell → Except PyFault Cell) (cells : List Cell),
      (∃ c ∈ cells, ∃ e, f c = .error e) →
      ∃ e, applyColumnE f cells = .error e := by
  intro f cells
  induction cells with
  | nil =>
    rintro ⟨c, hc, _⟩
    cases hc
  | cons x t ih =>
    rintro ⟨c, hc, e, he⟩
    rcases List.mem_cons.mp hc with h1 | h1
    · subst h1
      refine ⟨e, ?_⟩
      unfold applyColumnE
      rw [he]
    · cases hfx : f x with
      | error e2 =>
        refine ⟨e2, ?_⟩
        unfold applyColumnE
        rw [hfx]
      | ok v =>
        obtain ⟨e2, he2⟩ := ih ⟨c, h1, e, he⟩
        refine ⟨e2, ?_⟩
        unfold applyColumnE
        rw [hfx, he2]

/-- C4 amended witness: the propagation applied to the demonstration
column. -/
theorem C4_amended_fault_propagates_witness :
    ∃ e, applyColumnE demoFaultingParse demoColumn = .error e :=
  C4_amended_fault_propagates demoFaultingParse demoColumn
    ⟨some (.str "BOOM".data), by decide, PyFault.fault, by rfl⟩

/-- C8 counterexample: `" Unknown "` is non-blank and is not a verbatim key
of the table, yet the classifier returns `(None, None)` — the lookup uses
the stripped string, which hits the `"Unknown"` row mapped to
`(None, None)`. -/
theorem C8_counterexample_padded_key :
    pyStrip " Unknown ".data ≠ [] ∧
    BIRTH_PLACE_MAPPING.find? (fun e => decide (e.1 = " Unknown ".data)) = none ∧
    extract_country_from_birth_place (some " Unknown ".data) = (none, none) := by
  exact ⟨by decide, by decide, by decide⟩

/-- C8 amended: for every place string whose **stripped** form is non-empty
and absent from the table, the classifier returns the stripped text with an
absent code — `(stripped_text, None)`, never `(None, None)`; matching is an
exact lookup of the stripped string, with no partial or fuzzy matching. -/
theorem C8_amended_fallback :
    ∀ s : List Char, pyStrip s ≠ [] →
      BIRTH_PLACE_MAPPING.find? (fun e => decide (e.1 = pyStrip s)) = none →
      extract_country_from_birth_place (some s) = (some (pyStrip s), none) := by
  intro s h1 h2
  have hne : (pyStrip s).isEmpty = false := by
    cases he : (pyStrip s).isEmpty
    · rfl
    · exact absurd (List.isEmpty_iff.mp he) h1
  simp [extract_country_from_birth_place, hne, h2]

/-- C8 amended witness: the fallback applied to `"Atlantis"`. -/
theorem C8_amended_fallback_witness :
    extract_country_from_birth_place (some "Atlantis".data) =
      (some (pyStrip "Atlantis".data), none) :=
  C8_amended_fallback "Atlantis".data (by decide) (by decide)

/-- The source test `keyword.lower() in text.lower()` as a proposition. -/
def kwMatches (k s : List Char) : Prop :=
  isSubstringOf (toLowerL k) (toLowerL s) = true

instance (k s : List Char) : Decidable (kwMatches k s) := by
  unfold kwMatches
  infer_instance

/-- Keyword list of a category in the fixed table (empty when absent). -/
def keywordsOf (c : List Char) : List (List Char) :=
  ((OCCUPATION_KEYWORDS.find? (fun p => decide (p.1 = c))).map (fun p => p.2)).getD []

theorem categorize_blank (s : List Char) (h : pyStrip s = []) :
    categorize_occupation (some s) = "Unknown".data := by
  simp only [categorize_occupation]
  rw [if_pos (List.isEmpty_iff.mpr h)]

theorem categorize_first_match (s : List Char)
    (pre : List (List Char × List (List Char))) (c : List Char)
    (kws : List (List Char)) (post : List (List Char × List (List Char)))
    (htable : OCCUPATION_KEYWORDS = pre ++ (c, kws) :: post)
    (hblank : pyStrip s ≠ [])
    (hpre : ∀ p ∈ pre, ∀ k ∈ p.2, ¬ kwMatches k s)
    (hmatch : ∃ k ∈ kws, kwMatches k s) :
    categorize_occupation (some s) = c := by
  simp only [categorize_occupation]
  have hne : (pyStrip s).isEmpty = false := by
    cases he : (pyStrip s).isEmpty
    · rfl
    · exact absurd (List.isEmpty_iff.mp he) hblank
  rw [if_neg (by rw [hne]; exact Bool.false_ne_true)]
  rw [htable, List.find?_append]
  have h1 : pre.find?
      (fun p => p.2.any (fun k => isSubstringOf (toLowerL k) (toLowerL s))) = none := by
    apply List.find?_eq_none.mpr
    intro p hp hany
    obtain ⟨k, hk, hm⟩ := List.any_eq_true.mp hany
    exact hpre p hp k hk hm
  rw [h1]
  have h2 : ((c, kws) :: post).find?
      (fun p => p.2.any (fun k => isSubstringOf (toLowerL k) (toLowerL s))) =
        some (c, kws) := by
    rw [List.find?_cons]
    have hany : kws.any (fun k => isSubstringOf (toLowerL k) (toLowerL s)) = true := by
      apply List.any_eq_true.mpr
      obtain ⟨k, hk, hm⟩ := hmatch
      exact ⟨k, hk, hm⟩
    simp [hany]
  rw [Option.none_or, h2]

/-- Claim C6: the occupation classifier returns `Unknown` for absent or
blank input, `Other` for non-blank input matching no keyword, and otherwise
the first category of the fixed ordered table with a matching keyword; in
particular a text matching both a `Military/Intelligence` keyword and an
`IT/Technology` keyword resolves to `Military/Intelligence`, the earlier
(indeed first) category of the table. -/
theorem C6_occupation_order :
    (categorize_occupation none = "Unknown".data) ∧
    (∀ s : List Char, pyStrip s = [] → categorize_occupation (some s) = "Unknown".data) ∧
    (∀ s : List Char, pyStrip s ≠ [] →
      (∀ p ∈ OCCUPATION_KEYWORDS, ∀ k ∈ p.2, ¬ kwMatches k s) →
      categorize_occupation (some s) = "Other".data) ∧
    (∀ (s : List Char) (pre : List (List Char × List (List Char))) (c : List Char)
      (kws : List (List Char)) (post : List (List Char × List (List Char))),
      OCCUPATION_KEYWORDS = pre ++ (c, kws) :: post →
      pyStrip s ≠ [] →
      (∀ p ∈ pre, ∀ k ∈ p.2, ¬ kwMatches k s) →
      (∃ k ∈ kws, kwMatches k s) →
      categorize_occupation (some s) = c) ∧
    (∀ s : List Char, pyStrip s ≠ [] →
      (∃ k ∈ keywordsOf "Military/Intelligence".data, kwMatches k s) →
      (∃ k ∈ keywordsOf "IT/Technology".data, kwMatches k s) →
      categorize_occupation (some s) = "Military/Intelligence".data) := by
  refine ⟨rfl, categorize_blank, ?_, categorize_first_match, ?_⟩
  · intro s hblank hnone
    simp only [categorize_occupation]
    have hne : (pyStrip s).isEmpty = false := by
      cases he : (pyStrip s).isEmpty
      · rfl
      · exact absurd (List.isEmpty_iff.mp he) hblank
    rw [if_neg (by rw [hne]; exact Bool.false_ne_true)]
    have h1 : OCCUPATION_KEYWORDS.find?
        (fun p => p.2.any (fun k => isSubstringOf (toLowerL k) (toLowerL s))) = none := by
      apply List.find?_eq_none.mpr
      intro p hp hany
      obtain ⟨k, hk, hm⟩ := List.any_eq_true.mp hany
      exact hnone p hp k hk hm
    rw [h1]
  · intro s hblank hmil _
    exact categorize_first_match s [] "Military/Intelligence".data
      (keywordsOf "Military/Intelligence".data) OCCUPATION_KEYWORDS.tail rfl hblank
      (by intro p hp; cases hp) hmil

/-- C6 witness: blank text, unmatched text, and a text with both a military
and a technology keyword. -/
theorem C6_occupation_order_witness :
    categorize_occupation (some "   ".data) = "Unknown".data ∧
    categorize_occupation (some "xyzzy".data) = "Other".data ∧
    categorize_occupation (some "army engineer".data) = "Military/Intelligence".data := by
  refine ⟨C6_occupation_order.2.1 _ (by decide),
    C6_occupation_order.2.2.1 _ (by decide) (by decide), ?_⟩
  exact C6_occupation_order.2.2.2.2 _ (by decide)
    ⟨"army".data, by decide, by decide⟩ ⟨"engineer".data, by decide, by decide⟩

/-! ### Membership monotonicity of the stages (stages only add columns) -/

theorem process_aliases_mono {df : DF} {c : String} (h : c ∈ df.cols) :
    c ∈ (process_aliases df).cols := by
  unfold process_aliases
  by_cases hA : df.hasCol "alias" = true
  · rw [if_pos hA]
    exact mem_assign_cols_of_mem h
  · rw [if_neg hA]
    exact h

theorem process_dates_mono {df : DF} {c : String} (h : c ∈ df.cols) :
    c ∈ (process_dates_and_ages df).cols := by
  unfold process_dates_and_ages
  cases hf : dobCandidates.find? (fun x => df.hasCol x) with
  | none => exact h
  | some dob =>
    exact mem_assign_cols_of_mem (mem_assign_cols_of_mem (mem_assign_cols_of_mem h))

theorem process_occupations_mono {df : DF} {c : String} (h : c ∈ df.cols) :
    c ∈ (process_occupations df).cols := by
  unfold process_occupations
  by_cases hA : df.hasCol "Occupation" = true
  · rw [if_pos hA]
    exact mem_assign_cols_of_mem h
  · rw [if_neg hA]
    exact h

theorem process_birth_places_mono {df : DF} {c : String} (h : c ∈ df.cols) :
    c ∈ (process_birth_places df).cols := by
  unfold process_birth_places
  by_cases hA : df.hasCol "Place of Birth" = true
  · rw [if_pos hA]
    exact mem_assign_cols_of_mem (mem_assign_cols_of_mem h)
  · rw [if_neg hA]
    exact h

theorem process_languages_mono {df : DF} {c : String} (h : c ∈ df.cols) :
    c ∈ (process_languages df).cols := by
  unfold process_languages
  by_cases hA : df.hasCol "Languages" = true
  · rw [if_pos hA]
    exact mem_assign_cols_of_mem (mem_assign_cols_of_mem (mem_assign_cols_of_mem h))
  · rw [if_neg hA]
    exact h

theorem process_hair_color_mono {df : DF} {c : String} (h : c ∈ df.cols) :
    c ∈ (process_hair_color df).cols := by
  unfold process_hair_color
  by_cases hA : df.hasCol "Hair" = true
  · rw [if_pos hA]
    exact mem_assign_cols_of_mem h
  · rw [if_neg hA]
    exact h

theorem process_physical_mono {df : DF} {c : String} (h : c ∈ df.cols) :
    c ∈ (process_physical_measurements df).cols := by
  unfold process_physical_measurements
  by_cases hA : df.hasCol "Height" = true <;>
    [rw [if_pos hA]; rw [if_neg hA]] <;> dsimp only <;>
    first
    | (by_cases hB : ((df.assign "height_cm" "Height" heightCell).hasCol "Weight") = true
       · rw [if_pos hB]
         exact mem_assign_cols_of_mem (mem_assign_cols_of_mem h)
       · rw [if_neg hB]
         exact mem_assign_cols_of_mem h)
    | (by_cases hB : (df.hasCol "Weight") = true
       · rw [if_pos hB]
         exact mem_assign_cols_of_mem h
       · rw [if_neg hB]
         exact h)

/-! ### Shapes of the four always-written columns -/

theorem aliases_col_shape (d : DF) (hA : d.hasCol "alias" = true) :
    (process_aliases d).col "alias_count" =
      d.rows.map (fun r => countAliasesCell (r "alias")) := by
  unfold process_aliases
  rw [if_pos hA]
  exact assign_col_dst d _ _ _

theorem occupations_col_shape (d : DF) (hO : d.hasCol "Occupation" = true) :
    (process_occupations d).col "occupation_category" =
      d.rows.map (fun r => categorizeCell (r "Occupation")) := by
  unfold process_occupations
  rw [if_pos hO]
  exact assign_col_dst d _ _ _

theorem marks_col_mark_shape (d : DF) (hS : d.hasCol "Scars and Marks" = true) :
    (process_marks_and_caution d).col "has_mark" =
      d.rows.map (fun r => scarsCell (r "Scars and Marks")) := by
  unfold process_marks_and_caution
  rw [if_pos hS]
  dsimp only
  by_cases hB : ((d.assign "has_mark" "Scars and Marks" scarsCell).hasCol "caution") = true
  · rw [if_pos hB, assign_col_ne _ _ _ (by decide)]
    exact assign_col_dst d _ _ _
  · rw [if_neg hB]
    exact assign_col_dst d _ _ _

theorem marks_col_caution_shape (d : DF) (hC : d.hasCol "caution" = true) :
    ((process_marks_and_caution d).col "has_caution").length = d.rows.length ∧
    ∀ cell ∈ (process_marks_and_caution d).col "has_caution",
      ∃ b : Bool, cell = some (.bool b) := by
  unfold process_marks_and_caution
  by_cases hS : d.hasCol "Scars and Marks" = true <;>
    [rw [if_pos hS]; rw [if_neg hS]] <;> dsimp only
  · have hC1 : ((d.assign "has_mark" "Scars and Marks" scarsCell).hasCol "caution") = true :=
      (hasCol_iff _ _).mpr (mem_assign_cols_of_mem ((hasCol_iff _ _).mp hC))
    rw [if_pos hC1, assign_col_dst]
    constructor
    · rw [List.length_map, assign_rows_length]
    · intro cell hcell
      obtain ⟨r, _, hr⟩ := List.mem_map.mp hcell
      exact ⟨detect_dollar_amounts (cellText (r "caution")), hr.symm⟩
  · rw [if_pos hC, assign_col_dst]
    constructor
    · rw [List.length_map]
    · intro cell hcell
      obtain ⟨r, _, hr⟩ := List.mem_map.mp hcell
      exact ⟨detect_dollar_amounts (cellText (r "caution")), hr.symm⟩

/-- The closed category set: the table keys plus `Other`. -/
def occupationCategories : List (List Char) :=
  OCCUPATION_KEYWORDS.map (fun p => p.1) ++ ["Other".data]

theorem categorize_mem (t : Option (List Char)) :
    categorize_occupation t ∈ occupationCategories := by
  cases t with
  | none => decide
  | some raw =>
    simp only [categorize_occupation]
    by_cases hb : (pyStrip raw).isEmpty = true
    · rw [if_pos hb]
      decide
    · rw [if_neg hb]
      cases hf : OCCUPATION_KEYWORDS.find?
          (fun p => p.2.any (fun k => isSubstringOf (toLowerL k) (toLowerL raw))) with
      | some p =>
        have hmem := List.mem_of_find?_eq_some hf
        exact List.mem_append.mpr (Or.inl (List.mem_map.mpr ⟨p, hmem, rfl⟩))
      | none =>
        simp [occupationCategories]

/-- A record set with only an identification column: none of the source
columns `alias`, `Occupation`, `Scars and Marks`, `caution` is present
(description labels are sparse, so a run can lack them entirely). -/
def dfNoSources : DF :=
  ⟨["url"], [fun c => if c = "url" then some (.str "u1".data) else none]⟩

set_option maxRecDepth 8192 in
/-- C5 counterexample: normalizing a record set whose source columns are
missing produces an output whose only column is `url` — `alias_count`,
`has_mark`, `has_caution` and `occupation_category` are absent for its
record, contradicting "none of these fields is ever absent". -/
theorem C5_counterexample_missing_source_columns :
    (clean_dataframe dfNoSources).rows.length = 1 ∧
    "alias_count" ∉ (clean_dataframe dfNoSources).cols ∧
    "has_mark" ∉ (clean_dataframe dfNoSources).cols ∧
    "has_caution" ∉ (clean_dataframe dfNoSources).cols ∧
    "occupation_category" ∉ (clean_dataframe dfNoSources).cols := by
  exact ⟨rfl, by decide, by decide, by decide, by decide⟩

/-- C5 amended: whenever the source columns are present in the input, the
four derived fields are total over the normalized output: each column has
one cell per input row, `alias_count` always a non-negative integer,
`has_mark`/`has_caution` always booleans, `occupation_category` always a
member of the fixed category set; but a missing source column leaves the
derived column absent for every record. -/
theorem C5_amended_totality (df : DF)
    (hA : df.hasCol "alias" = true) (hO : df.hasCol "Occupation" = true)
    (hS : df.hasCol "Scars and Marks" = true) (hC : df.hasCol "caution" = true) :
    (((clean_dataframe df).col "alias_count").length = df.rows.length ∧
      ∀ cell ∈ (clean_dataframe df).col "alias_count",
        ∃ n : ℕ, cell = some (.intv (n : ℤ))) ∧
    (((clean_dataframe df).col "occupation_category").length = df.rows.length ∧
      ∀ cell ∈ (clean_dataframe df).col "occupation_category",
        ∃ s ∈ occupationCategories, cell = some (.str s)) ∧
    (((clean_dataframe df).col "has_mark").length = df.rows.length ∧
      ∀ cell ∈ (clean_dataframe df).col "has_mark",
        ∃ b : Bool, cell = some (.bool b)) ∧
    (((clean_dataframe df).col "has_caution").length = df.rows.length ∧
      ∀ cell ∈ (clean_dataframe df).col "has_caution",
        ∃ b : Bool, cell = some (.bool b)) := by
  refine ⟨?_, ?_, ?_, ?_⟩
  · have e1 : (clean_dataframe df).col "alias_count" =
        df.rows.map (fun r => countAliasesCell (r "alias")) := by
      unfold clean_dataframe
      rw [reorganize_col _ (by decide) (by decide),
        remove_unused_col _ (by decide),
        process_marks_col _ (by decide) (by decide),
        process_physical_col _ (by decide) (by decide),
        process_hair_color_col _ (by decide),
        process_languages_col _ (by decide) (by decide) (by decide),
        process_birth_places_col _ (by decide) (by decide),
        process_occupations_col _ (by decide),
        process_dates_col _ (by decide) (by decide) (by decide)]
      exact aliases_col_shape df hA
    rw [e1]
    constructor
    · rw [List.length_map]
    · intro cell hcell
      obtain ⟨r, _, hr⟩ := List.mem_map.mp hcell
      exact ⟨count_aliases (cellText (r "alias")), hr.symm⟩
  · have hO2 : (process_dates_and_ages (process_aliases df)).hasCol "Occupation" = true :=
      (hasCol_iff _ _).mpr
        (process_dates_mono (process_aliases_mono ((hasCol_iff _ _).mp hO)))
    have e2 : (clean_dataframe df).col "occupation_category" =
        (process_dates_and_ages (process_aliases df)).rows.map
          (fun r => categorizeCell (r "Occupation")) := by
      unfold clean_dataframe
      rw [reorganize_col _ (by decide) (by decide),
        remove_unused_col _ (by decide),
        process_marks_col _ (by decide) (by decide),
        process_physical_col _ (by decide) (by decide),
        process_hair_color_col _ (by decide),
        process_languages_col _ (by decide) (by decide) (by decide),
        process_birth_places_col _ (by decide) (by decide)]
      exact occupations_col_shape _ hO2
    rw [e2]
    constructor
    · rw [List.length_map, process_dates_len, process_aliases_len]
    · intro cell hcell
      obtain ⟨r, _, hr⟩ := List.mem_map.mp hcell
      exact ⟨categorize_occupation (cellText (r "Occupation")),
        categorize_mem _, hr.symm⟩
  · have hS8 : (process_physical_measurements (process_hair_color (process_languages
        (process_birth_places (process_occupations (process_dates_and_ages
          (process_aliases df))))))).hasCol "Scars and Marks" = true :=
      (hasCol_iff _ _).mpr
        (process_physical_mono (process_hair_color_mono (process_languages_mono
          (process_birth_places_mono (process_occupations_mono (process_dates_mono
            (process_aliases_mono ((hasCol_iff _ _).mp hS))))))))
    have e3 : (clean_dataframe df).col "has_mark" =
        (process_physical_measurements (process_hair_color (process_languages
          (process_birth_places (process_occupations (process_dates_and_ages
            (process_aliases df))))))).rows.map
          (fun r => scarsCell (r "Scars and Marks")) := by
      unfold clean_dataframe
      rw [reorganize_col _ (by decide) (by decide),
        remove_unused_col _ (by decide)]
      exact marks_col_mark_shape _ hS8
    rw [e3]
    constructor
    · rw [List.length_map, process_physical_len, process_hair_color_len,
        process_languages_len, process_birth_places_len, process_occupations_len,
        process_dates_len, process_aliases_len]
    · intro cell hcell
      obtain ⟨r, _, hr⟩ := List.mem_map.mp hcell
      exact ⟨detect_scars_marks (cellText (r "Scars and Marks")), hr.symm⟩
  · have hC8 : (process_physical_measurements (process_hair_color (process_languages
        (process_birth_places (process_occupations (process_dates_and_ages
          (process_aliases df))))))).hasCol "caution" = true :=
      (hasCol_iff _ _).mpr
        (process_physical_mono (process_hair_color_mono (process_languages_mono
          (process_birth_places_mono (process_occupations_mono (process_dates_mono
            (process_aliases_mono ((hasCol_iff _ _).mp hC))))))))
    have e4 : (clean_dataframe df).col "has_caution" =
        (process_marks_and_caution (process_physical_measurements (process_hair_color
          (process_languages (process_birth_places (process_occupations
            (process_dates_and_ages (process_aliases df)))))))).col "has_caution" := by
      unfold clean_dataframe
      rw [reorganize_col _ (by decide) (by decide),
        remove_unused_col _ (by decide)]
    obtain ⟨hlen, hshape⟩ := marks_col_caution_shape _ hC8
    rw [e4]
    constructor
    · rw [hlen, process_physical_len, process_hair_color_len,
        process_languages_len, process_birth_places_len, process_occupations_len,
        process_dates_len, process_aliases_len]
    · exact hshape

/-- C5 amended witness: a one-record frame carrying all four source
columns. -/
theorem C5_amended_totality_witness :
    ((clean_dataframe ⟨["url", "alias", "Occupation", "Scars and Marks", "caution"],
        [fun _ => none]⟩).col "alias_count").length = 1 := by
  have h := C5_amended_totality
    ⟨["url", "alias", "Occupation", "Scars and Marks", "caution"], [fun _ => none]⟩
    (by decide) (by decide) (by decide) (by decide)
  exact h.1.1

/-! ### No-op behaviour of the stages on a normalized frame -/

theorem process_aliases_id (df : DF) (h : "alias" ∉ df.cols) :
    process_aliases df = df := by
  unfold process_aliases
  rw [if_neg (by rw [hasCol_false df _ h]; exact Bool.false_ne_true)]

theorem process_dates_id (df : DF) (h1 : "Date(s) of Birth Used" ∉ df.cols)
    (h2 : "Date of Birth" ∉ df.cols) (h3 : "DOB" ∉ df.cols) :
    process_dates_and_ages df = df := by
  unfold process_dates_and_ages
  have hf : dobCandidates.find? (fun c => df.hasCol c) = none := by
    apply List.find?_eq_none.mpr
    intro x hx
    simp only [dobCandidates, List.mem_cons, List.not_mem_nil, or_false] at hx
    rcases hx with h4 | h4 | h4 <;> subst h4
    · rw [hasCol_false df _ h1]
      exact Bool.false_ne_true
    · rw [hasCol_false df _ h2]
      exact Bool.false_ne_true
    · rw [hasCol_false df _ h3]
      exact Bool.false_ne_true
  rw [hf]

theorem process_occupations_id (df : DF) (h : "Occupation" ∉ df.cols) :
    process_occupations df = df := by
  unfold process_occupations
  rw [if_neg (by rw [hasCol_false df _ h]; exact Bool.false_ne_true)]

theorem process_birth_places_id (df : DF) (h : "Place of Birth" ∉ df.cols) :
    process_birth_places df = df := by
  unfold process_birth_places
  rw [if_neg (by rw [hasCol_false df _ h]; exact Bool.false_ne_true)]

theorem process_languages_id (df : DF) (h : "Languages" ∉ df.cols) :
    process_languages df = df := by
  unfold process_languages
  rw [if_neg (by rw [hasCol_false df _ h]; exact Bool.false_ne_true)]

theorem process_hair_color_id (df : DF) (h : "Hair" ∉ df.cols) :
    process_hair_color df = df := by
  unfold process_hair_color
  rw [if_neg (by rw [hasCol_false df _ h]; exact Bool.false_ne_true)]

theorem process_physical_id (df : DF) (h1 : "Height" ∉ df.cols)
    (h2 : "Weight" ∉ df.cols) : process_physical_measurements df = df := by
  unfold process_physical_measurements
  have hA : ¬ df.hasCol "Height" = true := by
    rw [hasCol_false df _ h1]
    exact Bool.false_ne_true
  have hB : ¬ df.hasCol "Weight" = true := by
    rw [hasCol_false df _ h2]
    exact Bool.false_ne_true
  rw [if_neg hA]
  dsimp only
  rw [if_neg hB]

theorem process_marks_id (df : DF) (h1 : "Scars and Marks" ∉ df.cols)
    (h2 : "caution" ∉ df.cols) : process_marks_and_caution df = df := by
  unfold process_marks_and_caution
  have hA : ¬ df.hasCol "Scars and Marks" = true := by
    rw [hasCol_false df _ h1]
    exact Bool.false_ne_true
  have hB : ¬ df.hasCol "caution" = true := by
    rw [hasCol_false df _ h2]
    exact Bool.false_ne_true
  rw [if_neg hA]
  dsimp only
  rw [if_neg hB]

theorem foldl_drop_id :
    ∀ (l : List String) (df : DF), (∀ x ∈ l, x ∉ df.cols) →
      l.foldl (fun d x => if d.hasCol x then d.dropCol x else d) df = df := by
  intro l
  induction l with
  | nil =>
    intro df _
    rfl
  | cons x t ih =>
    intro df h
    rw [List.foldl_cons,
      if_neg (by rw [hasCol_false df _ (h x (by simp))]; exact Bool.false_ne_true)]
    exact ih df (fun y hy => h y (by simp [hy]))

theorem remove_unused_id (df : DF) (h : ∀ x ∈ colsToDrop, x ∉ df.cols) :
    remove_unused_columns df = df :=
  foldl_drop_id _ _ h

theorem reorganize_id (df : DF) (hsrc : ∀ p ∈ renameMap, p.1 ∉ df.cols)
    (hord : orderCols df.cols = df.cols) :
    rename_and_reorganize_columns df = df := by
  have hlook : ∀ s ∈ df.cols, List.lookup s renameMap = none := by
    intro s hs
    cases hl : List.lookup s renameMap with
    | none => rfl
    | some t => exact absurd hs (hsrc (s, t) (lookup_mem _ _ _ hl))
  unfold rename_and_reorganize_columns
  rw [renameCols_id df hlook]
  dsimp only
  rw [hord]

/-! ### Absence of columns after the stages -/

theorem assign_absent {df : DF} {dst src c : String} {f : Cell → Cell}
    (h : c ∉ df.cols) (hne : c ≠ dst ∨ dst ∈ df.cols) :
    c ∉ (df.assign dst src f).cols := by
  intro hx
  rcases mem_assign_cols hx with h1 | h1
  · exact h h1
  · rcases hne with h2 | h2
    · exact h2 h1
    · exact h (h1 ▸ h2)

theorem process_aliases_absent {df : DF} {c : String} (h : c ∉ df.cols)
    (hd : c ≠ "alias_count") : c ∉ (process_aliases df).cols := by
  unfold process_aliases
  by_cases hA : df.hasCol "alias" = true
  · rw [if_pos hA]
    exact assign_absent h (Or.inl hd)
  · rw [if_neg hA]
    exact h

theorem process_dates_absent {df : DF} {c : String} (h : c ∉ df.cols)
    (hd1 : c ≠ "age_years") (hd2 : c ≠ "zodiac_sign") :
    c ∉ (process_dates_and_ages df).cols := by
  unfold process_dates_and_ages
  cases hf : dobCandidates.find? (fun x => df.hasCol x) with
  | none => exact h
  | some dob =>
    have hdob : dob ∈ df.cols := (hasCol_iff df dob).mp (List.find?_some hf)
    apply assign_absent _ (Or.inl hd2)
    apply assign_absent _ (Or.inl hd1)
    exact assign_absent h (Or.inr hdob)

theorem process_occupations_absent {df : DF} {c : String} (h : c ∉ df.cols)
    (hd : c ≠ "occupation_category") : c ∉ (process_occupations df).cols := by
  unfold process_occupations
  by_cases hA : df.hasCol "Occupation" = true
  · rw [if_pos hA]
    exact assign_absent h (Or.inl hd)
  · rw [if_neg hA]
    exact h

theorem process_birth_places_absent {df : DF} {c : String} (h : c ∉ df.cols)
    (hd1 : c ≠ "birth_country") (hd2 : c ≠ "birth_country_code") :
    c ∉ (process_birth_places df).cols := by
  unfold process_birth_places
  by_cases hA : df.hasCol "Place of Birth" = true
  · rw [if_pos hA]
    exact assign_absent (assign_absent h (Or.inl hd1)) (Or.inl hd2)
  · rw [if_neg hA]
    exact h

theorem process_languages_absent {df : DF} {c : String} (h : c ∉ df.cols)
    (hd1 : c ≠ "Language_1") (hd2 : c ≠ "Language_2") (hd3 : c ≠ "Language_3") :
    c ∉ (process_languages df).cols := by
  unfold process_languages
  by_cases hA : df.hasCol "Languages" = true
  · rw [if_pos hA]
    exact assign_absent (assign_absent (assign_absent h (Or.inl hd1)) (Or.inl hd2))
      (Or.inl hd3)
  · rw [if_neg hA]
    exact h

theorem process_hair_color_absent {df : DF} {c : String} (h : c ∉ df.cols)
    (hd : c ≠ "hair_color") : c ∉ (process_hair_color df).cols := by
  unfold process_hair_color
  by_cases hA : df.hasCol "Hair" = true
  · rw [if_pos hA]
    exact assign_absent h (Or.inl hd)
  · rw [if_neg hA]
    exact h

theorem process_physical_absent {df : DF} {c : String} (h : c ∉ df.cols)
    (hd1 : c ≠ "height_cm") (hd2 : c ≠ "weight_kg") :
    c ∉ (process_physical_measurements df).cols := by
  unfold process_physical_measurements
  by_cases hA : df.hasCol "Height" = true <;>
    [rw [if_pos hA]; rw [if_neg hA]] <;> dsimp only <;>
    first
    | (by_cases hB : ((df.assign "height_cm" "Height" heightCell).hasCol "Weight") = true
       · rw [if_pos hB]
         exact assign_absent (assign_absent h (Or.inl hd1)) (Or.inl hd2)
       · rw [if_neg hB]
         exact assign_absent h (Or.inl hd1))
    | (by_cases hB : (df.hasCol "Weight") = true
       · rw [if_pos hB]
         exact assign_absent h (Or.inl hd2)
       · rw [if_neg hB]
         exact h)

theorem process_marks_absent {df : DF} {c : String} (h : c ∉ df.cols)
    (hd1 : c ≠ "has_mark") (hd2 : c ≠ "has_caution") :
    c ∉ (process_marks_and_caution df).cols := by
  unfold process_marks_and_caution
  by_cases hA : df.hasCol "Scars and Marks" = true <;>
    [rw [if_pos hA]; rw [if_neg hA]] <;> dsimp only <;>
    first
    | (by_cases hB : ((df.assign "has_mark" "Scars and Marks" scarsCell).hasCol "caution") = true
       · rw [if_pos hB]
         exact assign_absent (assign_absent h (Or.inl hd1)) (Or.inl hd2)
       · rw [if_neg hB]
         exact assign_absent h (Or.inl hd1))
    | (by_cases hB : (df.hasCol "caution") = true
       · rw [if_pos hB]
         exact assign_absent h (Or.inl hd2)
       · rw [if_neg hB]
         exact h)

theorem dropCol_absent {df : DF} {c d : String} (h : c ∉ df.cols) :
    c ∉ (df.dropCol d).cols := by
  intro hx
  exact h (mem_dropCol.mp hx).1

theorem foldl_drop_absent {c : String} :
    ∀ (l : List String) (df : DF), c ∉ df.cols →
      c ∉ (l.foldl (fun d x => if d.hasCol x then d.dropCol x else d) df).cols := by
  intro l
  induction l with
  | nil =>
    intro df h
    exact h
  | cons x t ih =>
    intro df h
    rw [List.foldl_cons]
    apply ih
    by_cases hx : df.hasCol x = true
    · rw [if_pos hx]
      exact dropCol_absent h
    · rw [if_neg hx]
      exact h

theorem foldl_drop_kills {d : String} :
    ∀ (l : List String) (df : DF), d ∈ l →
      d ∉ (l.foldl (fun dd x => if dd.hasCol x then dd.dropCol x else dd) df).cols := by
  intro l
  induction l with
  | nil =>
    intro df h
    cases h
  | cons x t ih =>
    intro df h
    rcases List.mem_cons.mp h with h1 | h1
    · subst h1
      rw [List.foldl_cons]
      apply foldl_drop_absent
      by_cases hx : df.hasCol d = true
      · rw [if_pos hx]
        intro hm
        exact (mem_dropCol.mp hm).2 rfl
      · rw [if_neg hx]
        intro hm
        exact hx ((hasCol_iff df d).mpr hm)
    · rw [List.foldl_cons]
      exact ih _ h1

theorem rename_absent {df : DF} {c : String} (ht : ∀ p ∈ renameMap, p.2 ≠ c)
    (h : c ∉ df.cols) : c ∉ df.renameCols.cols := by
  intro hx
  obtain ⟨s, hs, hr⟩ := mem_renameCols.mp hx
  cases hl : List.lookup s renameMap with
  | some t =>
    have hfn : renameFn s = t := by simp [renameFn, hl]
    exact ht (s, t) (lookup_mem _ _ _ hl) (by rw [← hfn, hr])
  | none =>
    have hfn : renameFn s = s := by simp [renameFn, hl]
    rw [hfn] at hr
    exact h (hr ▸ hs)

theorem rename_kills {df : DF} {s : String}
    (hsome : List.lookup s renameMap ≠ none) (ht : ∀ p ∈ renameMap, p.2 ≠ s) :
    s ∉ df.renameCols.cols := by
  intro hx
  obtain ⟨x, hxm, hr⟩ := mem_renameCols.mp hx
  cases hl : List.lookup x renameMap with
  | some t =>
    have hfn : renameFn x = t := by simp [renameFn, hl]
    exact ht (x, t) (lookup_mem _ _ _ hl) (by rw [← hfn, hr])
  | none =>
    have hfn : renameFn x = x := by simp [renameFn, hl]
    rw [hfn] at hr
    rw [hr] at hl
    exact hsome hl

theorem reorganize_absent {df : DF} {c : String} (ht : ∀ p ∈ renameMap, p.2 ≠ c)
    (h : c ∉ df.cols) : c ∉ (rename_and_reorganize_columns df).cols := by
  unfold rename_and_reorganize_columns
  intro hx
  exact rename_absent ht h (mem_orderCols.mp hx)

theorem reorganize_kills {df : DF} {s : String}
    (hsome : List.lookup s renameMap ≠ none) (ht : ∀ p ∈ renameMap, p.2 ≠ s) :
    s ∉ (rename_and_reorganize_columns df).cols := by
  unfold rename_and_reorganize_columns
  intro hx
  exact rename_kills hsome ht (mem_orderCols.mp hx)

theorem remove_unused_absent {df : DF} {c : String} (h : c ∉ df.cols) :
    c ∉ (remove_unused_columns df).cols :=
  foldl_drop_absent _ _ h

theorem remove_unused_kills {df : DF} {d : String} (h : d ∈ colsToDrop) :
    d ∉ (remove_unused_columns df).cols :=
  foldl_drop_kills _ _ h

/-- A normalized frame: no stage-trigger column, no droppable column, no
rename source, and the column order already canonical.  On such a frame
every stage of `clean_dataframe` is the identity. -/
def NormalForm (df : DF) : Prop :=
  (∀ d ∈ colsToDrop, d ∉ df.cols) ∧
  (∀ p ∈ renameMap, p.1 ∉ df.cols) ∧
  "Date of Birth" ∉ df.cols ∧
  "DOB" ∉ df.cols ∧
  orderCols df.cols = df.cols

theorem clean_id (df : DF) (h : NormalForm df) : clean_dataframe df = df := by
  obtain ⟨hdrop, hsrc, hdob2, hdob3, hord⟩ := h
  have hAlias : "alias" ∉ df.cols := hsrc ("alias", "alias_text") (by decide)
  have hDob1 : "Date(s) of Birth Used" ∉ df.cols :=
    hsrc ("Date(s) of Birth Used", "date_of_birth") (by decide)
  unfold clean_dataframe
  rw [process_aliases_id df hAlias, process_dates_id df hDob1 hdob2 hdob3,
    process_occupations_id df (hdrop "Occupation" (by decide)),
    process_birth_places_id df (hdrop "Place of Birth" (by decide)),
    process_languages_id df (hdrop "Languages" (by decide)),
    process_hair_color_id df (hdrop "Hair" (by decide)),
    process_physical_id df (hdrop "Height" (by decide)) (hdrop "Weight" (by decide)),
    process_marks_id df (hdrop "Scars and Marks" (by decide)) (hdrop "caution" (by decide)),
    remove_unused_id df hdrop, reorganize_id df hsrc hord]

theorem clean_normalForm (df : DF)
    (h2 : "Date of Birth" ∉ df.cols) (h3 : "DOB" ∉ df.cols) :
    NormalForm (clean_dataframe df) := by
  have hTgtAll : ∀ d2 ∈ colsToDrop, ∀ p ∈ renameMap, p.2 ≠ d2 := by decide
  have hSrcL : ∀ p ∈ renameMap, List.lookup p.1 renameMap ≠ none := by decide
  have hSrcT : ∀ p ∈ renameMap, ∀ q ∈ renameMap, q.2 ≠ p.1 := by decide
  refine ⟨?_, ?_, ?_, ?_, ?_⟩
  · intro d hd
    unfold clean_dataframe
    exact reorganize_absent (hTgtAll d hd) (remove_unused_kills hd)
  · intro p hp
    unfold clean_dataframe
    exact reorganize_kills (hSrcL p hp) (hSrcT p hp)
  · unfold clean_dataframe
    apply reorganize_absent (by decide)
    apply remove_unused_absent
    apply process_marks_absent ?_ (by decide) (by decide)
    apply process_physical_absent ?_ (by decide) (by decide)
    apply process_hair_color_absent ?_ (by decide)
    apply process_languages_absent ?_ (by decide) (by decide) (by decide)
    apply process_birth_places_absent ?_ (by decide) (by decide)
    apply process_occupations_absent ?_ (by decide)
    apply process_dates_absent ?_ (by decide) (by decide)
    exact process_aliases_absent h2 (by decide)
  · unfold clean_dataframe
    apply reorganize_absent (by decide)
    apply remove_unused_absent
    apply process_marks_absent ?_ (by decide) (by decide)
    apply process_physical_absent ?_ (by decide) (by decide)
    apply process_hair_color_absent ?_ (by decide)
    apply process_languages_absent ?_ (by decide) (by decide) (by decide)
    apply process_birth_places_absent ?_ (by decide) (by decide)
    apply process_occupations_absent ?_ (by decide)
    apply process_dates_absent ?_ (by decide) (by decide)
    exact process_aliases_absent h3 (by decide)
  · unfold clean_dataframe rename_and_reorganize_columns
    dsimp only
    exact orderCols_idem _

/-- Claim C9: normalization is idempotent on already-normalized output.
For any input frame that does not use the alternate raw birth-date labels
`Date of Birth`/`DOB` (the pipeline neither drops nor renames those two, so
they are the one way a typed column could be re-read; the scraped data uses
`Date(s) of Birth Used`, which is renamed away), running `clean_dataframe`
on its own output changes nothing: every stage guard is false, nothing is
dropped or renamed, and the column order is already canonical. -/
theorem C9_idempotent (df : DF)
    (h2 : "Date of Birth" ∉ df.cols) (h3 : "DOB" ∉ df.cols) :
    clean_dataframe (clean_dataframe df) = clean_dataframe df :=
  clean_id _ (clean_normalForm df h2 h3)

/-- A small raw frame with an identification column and an alias column. -/
def dfW : DF :=
  ⟨["url", "alias"],
   [fun c => if c = "url" then some (.str "u1".data)
     else if c = "alias" then some (.str "John".data) else none]⟩

/-- C9 witness: idempotence at the concrete two-column frame. -/
theorem C9_idempotent_witness :
    clean_dataframe (clean_dataframe dfW) = clean_dataframe dfW :=
  C9_idempotent dfW (by decide) (by decide)
